import Mathlib

/-!
Verification development for the HowMuch secondhand-listing pipeline.

This file gives a shallow embedding, in Lean 4, of the pure logic of the
pipeline: the attribute fingerprint (app/services/sku_pipline.py and
app/db/crud.py), the crawler filter chain and incremental-crawl controller
(crawl/crawl_bg.py), the ingestion upsert (app/services/ingest.py), the
price-statistics aggregator (app/services/sku_pipline.py), and the
analytics query service (app/services/analytics.py with its API boundary
app/api/v1/analytics.py).  Machine integers are modelled as Nat/Int with
explicit reduction modulo 2 ^ 32 where the source relies on 32-bit
arithmetic (SHA-256), floats are modelled as exact rationals, database
tables are lists of rows, and fallible code returns Except values.
-/

set_option maxRecDepth 100000

unseal Rat.mul Rat.inv Rat.add Rat.sub

namespace HowMuch

/-! ## Generic string and character utilities -/

/-- Prefix test on character lists with plain equality. -/
def prefixOfB : List Char → List Char → Bool
  | [], _ => true
  | _ :: _, [] => false
  | c :: cs, x :: xs => c == x && prefixOfB cs xs

/-- Lower-case and strip all whitespace from a character list.  This models
the Python helper `_norm(s) = re.sub(r"\s+", "", s).lower()` used by the
crawler filters (crawl_bg.py line 63).  Python's `\s` and `.lower()` cover
more of Unicode than `Char.isWhitespace`/`Char.toLower`, but they agree on
the ASCII and Hangul inputs that occur in this code base (Hangul has no
case and the titles use plain spaces). -/
def normChars (s : List Char) : List Char :=
  (s.filter (fun c => !c.isWhitespace)).map Char.toLower

/-- String form of `normChars`. -/
def normStr (s : String) : String :=
  String.mk (normChars s.data)

/-- Substring test on character lists (Python `needle in haystack`). -/
def infixOfB (needle : List Char) : List Char → Bool
  | [] => prefixOfB needle []
  | x :: xs => prefixOfB needle (x :: xs) || infixOfB needle xs

/-- `_contains_any(text, kws)`: some keyword, normalised, occurs in the
normalised text (crawl_bg.py lines 64-65). -/
def contains_any (text : String) (kws : List String) : Bool :=
  kws.any (fun k => infixOfB (normChars k.data) (normChars text.data))

/-- Digits of a string, in order (Python `"".join(ch for ch in t if
ch.isdigit())` restricted to ASCII digits, which is what the scraped
inputs contain). -/
def digitChars (s : String) : List Char :=
  s.data.filter Char.isDigit

/-- Parse a nonempty ASCII digit list into a natural number. -/
def digitsToNat (ds : List Char) : Nat :=
  ds.foldl (fun acc c => acc * 10 + (c.toNat - 48)) 0

/-! ## SHA-256 over byte lists

A complete executable SHA-256, used by `generate_fingerprint`
(sku_pipline.py lines 40-56, crud.py lines 21-34, both call
`hashlib.sha256`).  Words are Nat values kept below `2 ^ 32`. -/

def M32 : Nat := 4294967296

def add32 (a b : Nat) : Nat := (a + b) % M32

def rotr32 (k x : Nat) : Nat :=
  ((x >>> k) ||| (x <<< (32 - k))) % M32

def xor3 (a b c : Nat) : Nat := (a ^^^ b) ^^^ c

def bigS0 (a : Nat) : Nat := xor3 (rotr32 2 a) (rotr32 13 a) (rotr32 22 a)

def bigS1 (e : Nat) : Nat := xor3 (rotr32 6 e) (rotr32 11 e) (rotr32 25 e)

def smallS0 (x : Nat) : Nat := xor3 (rotr32 7 x) (rotr32 18 x) (x >>> 3)

def smallS1 (x : Nat) : Nat := xor3 (rotr32 17 x) (rotr32 19 x) (x >>> 10)

def chF (e f g : Nat) : Nat := (e &&& f) ^^^ ((4294967295 ^^^ e) &&& g)

def majF (a b c : Nat) : Nat := xor3 (a &&& b) (a &&& c) (b &&& c)

def shaK : List Nat :=
  [1116352408, 1899447441, 3049323471, 3921009573,
   961987163, 1508970993, 2453635748, 2870763221,
   3624381080, 310598401, 607225278, 1426881987,
   1925078388, 2162078206, 2614888103, 3248222580,
   3835390401, 4022224774, 264347078, 604807628,
   770255983, 1249150122, 1555081692, 1996064986,
   2554220882, 2821834349, 2952996808, 3210313671,
   3336571891, 3584528711, 113926993, 338241895,
   666307205, 773529912, 1294757372, 1396182291,
   1695183700, 1986661051, 2177026350, 2456956037,
   2730485921, 2820302411, 3259730800, 3345764771,
   3516065817, 3600352804, 4094571909, 275423344,
   430227734, 506948616, 659060556, 883997877,
   958139571, 1322822218, 1537002063, 1747873779,
   1955562222, 2024104815, 2227730452, 2361852424,
   2428436474, 2756734187, 3204031479, 3329325298]

def shaH0 : List Nat :=
  [1779033703, 3144134277, 1013904242, 2773480762,
   1359893119, 2600822924, 528734635, 1541459225]

/-- Group a byte list into big-endian 32-bit words, four bytes at a time. -/
def bytesToWords : List Nat → List Nat
  | b1 :: b2 :: b3 :: b4 :: rest =>
      (((b1 * 256 + b2) * 256 + b3) * 256 + b4) :: bytesToWords rest
  | _ => []

/-- Extend the 16 message-schedule words to 64 (48 extension steps). -/
def scheduleExt : Nat → List Nat → List Nat
  | 0, w => w
  | n + 1, w =>
      let i := w.length
      let x := add32 (add32 (smallS1 (w.getD (i - 2) 0)) (w.getD (i - 7) 0))
                     (add32 (smallS0 (w.getD (i - 15) 0)) (w.getD (i - 16) 0))
      scheduleExt n (w ++ [x])

/-- One compression round on the state `[a, b, c, d, e, f, g, h]`. -/
def shaRound (st : List Nat) (kw : Nat × Nat) : List Nat :=
  let a := st.getD 0 0
  let b := st.getD 1 0
  let c := st.getD 2 0
  let d := st.getD 3 0
  let e := st.getD 4 0
  let f := st.getD 5 0
  let g := st.getD 6 0
  let h := st.getD 7 0
  let t1 := add32 (add32 (add32 h (bigS1 e)) (add32 (chF e f g) kw.1)) kw.2
  let t2 := add32 (bigS0 a) (majF a b c)
  [add32 t1 t2, a, b, c, add32 d t1, e, f, g]

/-- Compress one 64-byte block into the running hash state. -/
def processBlock (H : List Nat) (block : List Nat) : List Nat :=
  let w := scheduleExt 48 (bytesToWords block)
  let st := (shaK.zip w).foldl shaRound H
  (H.zip st).map (fun p => add32 p.1 p.2)

/-- Process `n` consecutive 64-byte blocks. -/
def processBlocks : Nat → List Nat → List Nat → List Nat
  | 0, _, H => H
  | n + 1, l, H => processBlocks n (l.drop 64) (processBlock H (l.take 64))

/-- MD-strengthening padding: `0x80`, zeros, and the 64-bit big-endian
bit length. -/
def shaPad (msg : List Nat) : List Nat :=
  let len := msg.length
  let rem := (len + 9) % 64
  let zeros := if rem = 0 then 0 else 64 - rem
  let bitLen := 8 * len
  msg ++ [0x80] ++ List.replicate zeros 0 ++
    ((List.range 8).map (fun i => (bitLen >>> (8 * (7 - i))) % 256))

/-- The eight 32-bit words of the SHA-256 digest of a byte list. -/
def sha256Words (msg : List Nat) : List Nat :=
  let padded := shaPad msg
  processBlocks (padded.length / 64) padded shaH0

/-- The sixteen lower-case hexadecimal digit characters. -/
def hexCharList : List Char := "0123456789abcdef".data

/-- Hexadecimal character of `n % 16`. -/
def hexChar (n : Nat) : Char :=
  hexCharList.getD (n % 16) '0'

/-- The eight hex characters of one 32-bit word, most significant first. -/
def wordHexChars (w : Nat) : List Char :=
  (List.range 8).map (fun i => hexChar (w >>> (4 * (7 - i))))

/-- Lower-case hex digest characters of the SHA-256 of a byte list. -/
def sha256HexChars (msg : List Nat) : List Char :=
  (sha256Words msg).foldr (fun w acc => wordHexChars w ++ acc) []

/-- UTF-8 encoding of one character, as bytes. -/
def utf8Char (c : Char) : List Nat :=
  let n := c.toNat
  if n < 128 then [n]
  else if n < 2048 then [192 + n / 64, 128 + n % 64]
  else if n < 65536 then [224 + n / 4096, 128 + (n / 64) % 64, 128 + n % 64]
  else [240 + n / 262144, 128 + (n / 4096) % 64, 128 + (n / 64) % 64,
        128 + n % 64]

/-- UTF-8 encoding of a string, as a byte list (Python `s.encode("utf-8")`). -/
def utf8Bytes (s : String) : List Nat :=
  s.data.foldr (fun c acc => utf8Char c ++ acc) []

/-- Full 64-character hex SHA-256 digest of the UTF-8 encoding of a string
(Python `hashlib.sha256(s.encode("utf-8")).hexdigest()`). -/
def sha256HexOfString (s : String) : String :=
  String.mk (sha256HexChars (utf8Bytes s))

/-! ## Attribute fingerprint (sku_pipline.py lines 40-56, crud.py 21-34)

`generate_fingerprint(attributes_dict)` sorts the dict items, joins them as
`"code:value"` pairs with `"|"`, hashes with SHA-256 and keeps the first 32
hex characters.  A Python dict is a finite map whose iteration order varies
with insertion history, so attribute mappings are modelled as association
lists of (code, value) pairs; `sorted` on pairs of strings is the
lexicographic order on (code, value), modelled with `List.insertionSort`
(equal elements are interchangeable, so stability is immaterial). -/

/-- Code-point lexicographic strict order on character lists.  This is the
comparison Python uses on `str` values; it is defined here by structural
recursion so that the kernel can evaluate it (the core `String.lt`
decidability procedure is not kernel-reducible). -/
def charListLt : List Char → List Char → Bool
  | _, [] => false
  | [], _ :: _ => true
  | a :: as, b :: bs =>
      if a < b then true else if b < a then false else charListLt as bs

theorem charListLt_irrefl : ∀ a : List Char, charListLt a a = false
  | [] => rfl
  | _ :: as => by simp [charListLt, charListLt_irrefl as]

theorem charListLt_trans :
    ∀ a b c : List Char, charListLt a b = true → charListLt b c = true →
      charListLt a c = true
  | _, [], _, hab, _ => by simp [charListLt] at hab
  | _, _ :: _, [], _, hbc => by simp [charListLt] at hbc
  | [], _ :: _, _ :: _, _, _ => rfl
  | a :: as, b :: bs, c :: cs, hab, hbc => by
      simp only [charListLt] at hab hbc ⊢
      rcases lt_trichotomy a b with h1 | h1 | h1
      · rcases lt_trichotomy b c with h2 | h2 | h2
        · simp [lt_trans h1 h2]
        · subst h2
          simp [h1]
        · rw [if_neg (lt_asymm h2), if_pos h2] at hbc
          exact absurd hbc Bool.false_ne_true
      · subst h1
        rw [if_neg (lt_irrefl a), if_neg (lt_irrefl a)] at hab
        rcases lt_trichotomy a c with h2 | h2 | h2
        · simp [h2]
        · subst h2
          rw [if_neg (lt_irrefl a), if_neg (lt_irrefl a)] at hbc ⊢
          exact charListLt_trans as bs cs hab hbc
        · rw [if_neg (lt_asymm h2), if_pos h2] at hbc
          exact absurd hbc Bool.false_ne_true
      · rw [if_neg (lt_asymm h1), if_pos h1] at hab
        exact absurd hab Bool.false_ne_true

theorem charListLt_trichotomy :
    ∀ a b : List Char, charListLt a b = true ∨ a = b ∨ charListLt b a = true
  | [], [] => Or.inr (Or.inl rfl)
  | [], _ :: _ => Or.inl rfl
  | _ :: _, [] => Or.inr (Or.inr rfl)
  | a :: as, b :: bs => by
      rcases lt_trichotomy a b with h | h | h
      · exact Or.inl (by simp [charListLt, h])
      · subst h
        rcases charListLt_trichotomy as bs with h2 | h2 | h2
        · exact Or.inl (by simp [charListLt, h2])
        · exact Or.inr (Or.inl (by rw [h2]))
        · exact Or.inr (Or.inr (by simp [charListLt, h2]))
      · exact Or.inr (Or.inr (by simp [charListLt, h]))

theorem charListLt_asymm {a b : List Char} (h : charListLt a b = true) :
    charListLt b a = false := by
  by_contra hba
  have hba' : charListLt b a = true := by
    cases hcb : charListLt b a
    · exact absurd hcb hba
    · rfl
  have := charListLt_trans a b a h hba'
  rw [charListLt_irrefl a] at this
  exact Bool.false_ne_true this

/-- Python tuple comparison on string pairs: lexicographic by first then
second component (code-point string order on each side), non-strict. -/
def pairLEb (a b : String × String) : Bool :=
  charListLt a.1.data b.1.data ||
    (a.1.data == b.1.data &&
      (charListLt a.2.data b.2.data || a.2.data == b.2.data))

def pairLE (a b : String × String) : Prop := pairLEb a b = true

instance : DecidableRel pairLE := fun a b =>
  instDecidableEqBool (pairLEb a b) true

theorem string_data_eq {a b : String} (h : a.data = b.data) : a = b := by
  cases a
  cases b
  exact congrArg String.mk h

instance : IsTotal (String × String) pairLE where
  total := by
    intro a b
    simp only [pairLE, pairLEb, Bool.or_eq_true, Bool.and_eq_true, beq_iff_eq]
    rcases charListLt_trichotomy a.1.data b.1.data with h | h | h
    · exact Or.inl (Or.inl h)
    · rcases charListLt_trichotomy a.2.data b.2.data with h2 | h2 | h2
      · exact Or.inl (Or.inr ⟨h, Or.inl h2⟩)
      · exact Or.inl (Or.inr ⟨h, Or.inr h2⟩)
      · exact Or.inr (Or.inr ⟨h.symm, Or.inl h2⟩)
    · exact Or.inr (Or.inl h)

instance : IsTrans (String × String) pairLE where
  trans := by
    intro a b c hab hbc
    simp only [pairLE, pairLEb, Bool.or_eq_true, Bool.and_eq_true,
      beq_iff_eq] at hab hbc ⊢
    rcases hab with h1 | ⟨h1, h1v⟩ <;> rcases hbc with h2 | ⟨h2, h2v⟩
    · exact Or.inl (charListLt_trans _ _ _ h1 h2)
    · exact Or.inl (h2 ▸ h1)
    · exact Or.inl (h1 ▸ h2)
    · refine Or.inr ⟨h1.trans h2, ?_⟩
      rcases h1v with hv1 | hv1 <;> rcases h2v with hv2 | hv2
      · exact Or.inl (charListLt_trans _ _ _ hv1 hv2)
      · exact Or.inl (hv2 ▸ hv1)
      · exact Or.inl (hv1 ▸ hv2)
      · exact Or.inr (hv1.trans hv2)

instance : IsAntisymm (String × String) pairLE where
  antisymm := by
    intro a b hab hba
    simp only [pairLE, pairLEb, Bool.or_eq_true, Bool.and_eq_true,
      beq_iff_eq] at hab hba
    rcases hab with h1 | ⟨h1, h1v⟩
    · rcases hba with h2 | ⟨h2, _⟩
      · have hf := charListLt_asymm h1
        rw [h2] at hf
        exact absurd hf (by simp)
      · rw [h2] at h1
        rw [charListLt_irrefl] at h1
        exact absurd h1 Bool.false_ne_true
    · rcases hba with h2 | ⟨h2, h2v⟩
      · rw [← h1] at h2
        rw [charListLt_irrefl] at h2
        exact absurd h2 Bool.false_ne_true
      · have hfst : a.1 = b.1 := string_data_eq h1
        have hsnd : a.2 = b.2 := by
          rcases h1v with hv1 | hv1
          · rcases h2v with hv2 | hv2
            · have hcyc := charListLt_trans _ _ _ hv1 hv2
              rw [charListLt_irrefl] at hcyc
              exact absurd hcyc Bool.false_ne_true
            · exact string_data_eq hv2.symm
          · exact string_data_eq hv1
        exact Prod.ext hfst hsnd

/-- `sorted(attributes_dict.items())`. -/
def sortAttrs (attrs : List (String × String)) : List (String × String) :=
  List.insertionSort pairLE attrs

/-- `"|".join(f"{k}:{v}" for k, v in sorted_attrs)` (the f-string braces are
Python interpolation of the key and value). -/
def joinAttrs (l : List (String × String)) : String :=
  String.intercalate "|" (l.map (fun p => p.1 ++ ":" ++ p.2))

/-- `generate_fingerprint`: serialise the sorted attribute entries and keep
the first 32 hex characters of the SHA-256 digest.  Python slices
`hexdigest()[:32]` by characters; the digest characters are ASCII, so the
slice is `List.take 32` on the character list. -/
def generate_fingerprint (attrs : List (String × String)) : String :=
  String.mk ((sha256HexChars (utf8Bytes (joinAttrs (sortAttrs attrs)))).take 32)

/-! ## Bunjang crawler (crawl/crawl_bg.py)

Category ids, price guards, the heuristic title filters, the per-item
processing with its filter chain, and the paginated incremental-crawl
controller with its consecutive-already-seen counter.  Module-level
constants keep their source values.  The floats used for means are
modelled as rationals; `datetime.now` is passed in as a `now` parameter;
the CSV append is modelled as a list of rows in the crawl state. -/

def IPHONE : Nat := 1

def IPAD : Nat := 2

def MACBOOK : Nat := 3

def WATCH : Nat := 4

def AIRPODS : Nat := 5

def CONSECUTIVE_SEEN_THRESHOLD : Nat := 30

def ITEMS_PER_PAGE : Nat := 100

def MAX_PAGES_PER_QUERY : Nat := 100

def ENABLE_TITLE_FILTER : Bool := true

def ENABLE_PRICE_GUARD : Bool := true

def ENABLE_PRICE_FILTER : Bool := false

structure Guard where
  min : Int
  max : Int
deriving DecidableEq

def CATEGORY_PRICE_GUARD (category_id : Nat) : Option Guard :=
  if category_id = IPHONE then some ⟨30000, 5000000⟩
  else if category_id = IPAD then some ⟨30000, 4000000⟩
  else if category_id = MACBOOK then some ⟨100000, 8000000⟩
  else if category_id = WATCH then some ⟨20000, 2000000⟩
  else if category_id = AIRPODS then some ⟨10000, 800000⟩
  else none

/-- `price_is_ridiculous` (crawl_bg.py lines 58-61): absent price is
rejected; with a guard for the category, any price outside the inclusive
[min, max] range is rejected; without a guard nothing is rejected. -/
def price_is_ridiculous (category_id : Nat) (price : Option Int) : Bool :=
  match price with
  | none => true
  | some p =>
      match CATEGORY_PRICE_GUARD category_id with
      | none => false
      | some g => !(g.min ≤ p && p ≤ g.max)

def ACCESSORY_CORE (category_id : Nat) : List String :=
  if category_id = IPHONE then
    ["케이스", "필름", "보호필름", "강화유리", "충전기", "어댑터", "케이블"]
  else if category_id = IPAD then
    ["케이스", "커버", "폴리오", "키보드", "펜슬팁", "필름", "충전기"]
  else if category_id = MACBOOK then
    ["파우치", "슬리브", "케이스", "키스킨", "필름", "독", "허브", "어댑터", "충전기"]
  else if category_id = WATCH then
    ["밴드", "스트랩", "케이스", "범퍼", "보호필름", "충전기", "충전독"]
  else if category_id = AIRPODS then
    ["케이스", "키링", "이어팁", "폼팁", "스트랩", "충전기", "충전케이스"]
  else []

def DEVICE_STRONG_HINTS (category_id : Nat) : List String :=
  if category_id = IPHONE then
    ["본체", "풀박스", "자급제", "미개봉", "리퍼", "공기계", "배터리성능",
     "128gb", "256gb", "512gb", "1tb"]
  else if category_id = IPAD then
    ["본체", "풀박스", "자급제", "미개봉", "wifi", "cellular", "11형", "12.9"]
  else if category_id = MACBOOK then
    ["본체", "풀박스", "m1", "m2", "m3", "intel", "ram", "ssd", "13인치",
     "14인치", "16인치"]
  else if category_id = WATCH then
    ["본체", "풀박스", "울트라", "se", "gps", "cellular", "41mm", "45mm"]
  else if category_id = AIRPODS then
    ["본체", "충전케이스 포함", "미개봉", "정품"]
  else []

def ACCESSORY_ONLY_HINTS : List String :=
  ["전용", "호환", "for", "용", "단품", "케이스만", "필름만", "스트랩만", "밴드만"]

def INCLUSION_PHRASES : List String :=
  ["케이스 포함", "필름 부착", "사은품", "덤으로", "증정"]

def BUYING_HINTS : List String :=
  ["삽니다", "구매합니다", "구해요", "찾습니다", "매입", "고가매입"]

def SERVICE_HINTS : List String :=
  ["수리", "교체", "액정수리", "배터리교체", "위탁판매", "대여", "렌탈"]

/-- `is_buying_or_service_title` (crawl_bg.py lines 86-89). -/
def is_buying_or_service_title (title : String) : Bool :=
  if title == "" then false
  else
    let t := normChars title.data
    BUYING_HINTS.any (fun k => infixOfB k.data t) ||
      SERVICE_HINTS.any (fun k => infixOfB k.data t)

/-- `is_accessory_title` (crawl_bg.py lines 91-99): the accessory-vs-device
classifier.  The final price test keeps its source form, where both the
then- and the else-branch return `true` (reject). -/
def is_accessory_title (title : String) (category_id : Nat)
    (price : Option Int) (baseline_mean : Option ℚ) : Bool :=
  if !ENABLE_TITLE_FILTER || title == "" then false
  else
    let t := normStr title
    if !contains_any t (ACCESSORY_CORE category_id) then false
    else if contains_any t INCLUSION_PHRASES then false
    else if contains_any t ACCESSORY_ONLY_HINTS then true
    else if contains_any t (DEVICE_STRONG_HINTS category_id) then false
    else
      match price, baseline_mean with
      | some p, some m =>
          if m ≠ 0 ∧ (p : ℚ) < max 50000 (m * (25 / 100)) then true else true
      | _, _ => true

def OUTLIER_RATIO : ℚ := 50 / 100

def MIN_SAMPLES_FOR_RUNNING : Nat := 20

structure RunningStat where
  n : Nat
  mean : ℚ
deriving DecidableEq

/-- One CSV output row (the columns used by downstream ingestion).  The
`posted_at` ISO rendering of the epoch timestamp is represented by the
timestamp value itself. -/
structure CrawlRow where
  source : String
  external_id : String
  category_id : Nat
  title : String
  price : Option Int
  url : String
  status : String
  sd : String
  sgg : String
  emd : String
  posted_at : Option Nat
  last_crawled_at : Nat
deriving DecidableEq

/-- Crawl-time mutable globals of crawl_bg.py: the seen-PID set (a list
kept duplicate-free by the guarded insert), the rows appended to the CSV,
the per-category running mean, and the baselines loaded from the baseline
JSON file. -/
structure CrawlState where
  seen : List String
  rows : List CrawlRow
  running : List (Nat × RunningStat)
  baselines : List (String × ℚ)

/-- One item of the marketplace search-API response, with the fields
`process_item` reads. -/
structure BgItem where
  pid : Option String
  ad : Bool
  ty : Option String
  name : String
  price : String
  location : String
  status : String
  update_time : Option Nat
deriving DecidableEq

/-- `update_running_mean` (crawl_bg.py lines 114-120): Welford-style
online mean per category. -/
def update_running_mean (running : List (Nat × RunningStat))
    (category_id : Nat) (price : Int) : List (Nat × RunningStat) :=
  let st := (running.lookup category_id).getD ⟨0, 0⟩
  let n2 := st.n + 1
  let upd : RunningStat := ⟨n2, st.mean + ((price : ℚ) - st.mean) / (n2 : ℚ)⟩
  if (running.lookup category_id).isSome then
    running.map (fun p => if p.1 = category_id then (p.1, upd) else p)
  else
    running ++ [(category_id, upd)]

/-- `get_baseline_mean` (crawl_bg.py lines 122-128). -/
def get_baseline_mean (st : CrawlState) (category_id : Nat) : Option ℚ :=
  match st.baselines.lookup (toString category_id) with
  | some m => some m
  | none =>
      match st.running.lookup category_id with
      | some rs => if rs.n ≥ MIN_SAMPLES_FOR_RUNNING then some rs.mean else none
      | none => none

/-- `price_is_outlier` (crawl_bg.py lines 130-135); inert because
`ENABLE_PRICE_FILTER` is False in the source. -/
def price_is_outlier (st : CrawlState) (category_id : Nat)
    (price : Option Int) : Bool :=
  if !ENABLE_PRICE_FILTER then false
  else
    match price with
    | none => false
    | some p =>
        match get_baseline_mean st category_id with
        | none => false
        | some base =>
            if base ≤ 0 then false
            else
              let lo := base * (1 - OUTLIER_RATIO)
              let hi := base * (1 + OUTLIER_RATIO)
              !(lo ≤ (p : ℚ) && (p : ℚ) ≤ hi)

/-- `parse_price_int` (crawl_bg.py lines 206-213): digits of the raw
price text, absent when there are none. -/
def parse_price_int (price_text : String) : Option Int :=
  let ds := digitChars price_text
  if ds.isEmpty then none else some (digitsToNat ds)

/-- Split on whitespace runs, discarding empty parts (Python `str.split()`),
accumulating the current word reversed. -/
def splitWsGo : List Char → List Char → List (List Char)
  | cur, [] => if cur.isEmpty then [] else [cur.reverse]
  | cur, c :: rest =>
      if c.isWhitespace then
        if cur.isEmpty then splitWsGo [] rest
        else cur.reverse :: splitWsGo [] rest
      else splitWsGo (c :: cur) rest

/-- `parse_location` (crawl_bg.py lines 215-221): positional
province/district/neighborhood split of the location text. -/
def parse_location (loc_text : String) : String × String × String :=
  let parts := (splitWsGo [] loc_text.data).map String.mk
  (parts.getD 0 "", parts.getD 1 "", parts.getD 2 "")

/-- Truthy external id of an item: `item.get("pid")` followed by Python
falsiness checks (absent and empty string are both falsy). -/
def pidVal (item : BgItem) : Option String :=
  match item.pid with
  | none => none
  | some s => if s == "" then none else some s

/-- `process_item` (crawl_bg.py lines 225-279): returns whether the item
was newly admitted, together with the updated crawl state (CSV rows, seen
set, running mean). -/
def process_item (now : Nat) (st : CrawlState) (category_id : Nat)
    (item : BgItem) : Bool × CrawlState :=
  match pidVal item with
  | none => (false, st)
  | some external_id =>
      if st.seen.contains external_id then (false, st)
      else if item.ad || item.ty == some "EXT_AD" then (false, st)
      else
        let title := item.name
        let price_val := parse_price_int item.price
        if is_buying_or_service_title title then (false, st)
        else if ENABLE_PRICE_GUARD && price_is_ridiculous category_id price_val then
          (false, st)
        else
          let baseline_mean :=
            if ENABLE_PRICE_FILTER then get_baseline_mean st category_id else none
          if is_accessory_title title category_id price_val baseline_mean then
            (false, st)
          else if price_is_outlier st category_id price_val then (false, st)
          else
            let st1 :=
              match price_val with
              | some v =>
                  { st with running := update_running_mean st.running category_id v }
              | none => st
            let loc := parse_location item.location
            if !(["서울", "서울시", "서울특별시"].contains (normStr loc.1)) then
              (false, st1)
            else
              let row : CrawlRow :=
                { source := "bunjang"
                  external_id := external_id
                  category_id := category_id
                  title := title
                  price := price_val
                  url := "https://m.bunjang.co.kr/products/" ++ external_id
                  status := if item.status == "0" then "active" else item.status
                  sd := loc.1
                  sgg := loc.2.1
                  emd := loc.2.2
                  posted_at := item.update_time
                  last_crawled_at := now }
              (true,
               { st1 with
                  rows := st1.rows ++ [row]
                  seen := st1.seen ++ [external_id] })

/-- The sequential item loop of `fetch_and_process_page` (crawl_bg.py
lines 316-325): threads (newly-processed count, consecutive-seen counter,
state) through the page's items. -/
def pageItemLoop (now category_id : Nat) :
    CrawlState → Nat → Nat → List BgItem → Nat × Nat × CrawlState
  | st, count, consec, [] => (count, consec, st)
  | st, count, consec, item :: rest =>
      let r := process_item now st category_id item
      if r.1 then pageItemLoop now category_id r.2 (count + 1) 0 rest
      else
        match pidVal item with
        | some p =>
            if r.2.seen.contains p then
              pageItemLoop now category_id r.2 count (consec + 1) rest
            else pageItemLoop now category_id r.2 count consec rest
        | none => pageItemLoop now category_id r.2 count consec rest

/-- `fetch_and_process_page` (crawl_bg.py lines 282-351) for a
successfully fetched page: returns (newly processed count, stop signal,
state).  An empty item list is the "no list" API answer, which signals
stop; the consecutive-seen counter starts at zero for each page and is
compared against the threshold only after the whole page is processed;
a short page also signals stop. -/
def fetch_and_process_page (now : Nat) (st : CrawlState) (category_id : Nat)
    (items : List BgItem) : Nat × Bool × CrawlState :=
  if items.isEmpty then (0, true, st)
  else
    let r := pageItemLoop now category_id st 0 0 items
    if CONSECUTIVE_SEEN_THRESHOLD ≤ r.2.1 then (r.1, true, r.2.2)
    else if items.length < ITEMS_PER_PAGE then (r.1, true, r.2.2)
    else (r.1, false, r.2.2)

/-- The page loop of `crawl_all_pages_for_query` (crawl_bg.py lines
354-380): pages are fetched in order starting from page 0; the fuel is
`MAX_PAGES_PER_QUERY`; a stop signal ends the query's crawl.  Pages beyond
the given stream are empty (the API returns no list there). -/
def crawlPagesGo (now category_id : Nat) (pages : List (List BgItem)) :
    Nat → Nat → CrawlState → CrawlState
  | 0, _, st => st
  | fuel + 1, i, st =>
      let r := fetch_and_process_page now st category_id (pages.getD i [])
      if r.2.1 then r.2.2
      else crawlPagesGo now category_id pages fuel (i + 1) r.2.2

/-- `crawl_all_pages_for_query`. -/
def crawl_all_pages_for_query (now : Nat) (st : CrawlState)
    (category_id : Nat) (pages : List (List BgItem)) : CrawlState :=
  crawlPagesGo now category_id pages MAX_PAGES_PER_QUERY 0 st

/-- The admission decision of the filter chain for an item whose truthy
pid is not in the seen set: not an ad, not a buy/service ad, price within
the category guard, not an accessory title, not an outlier, and located in
Seoul.  Used to state the counter properties of C5. -/
def admitsB (st : CrawlState) (category_id : Nat) (item : BgItem) : Bool :=
  !(item.ad || item.ty == some "EXT_AD") &&
  !is_buying_or_service_title item.name &&
  !(ENABLE_PRICE_GUARD &&
      price_is_ridiculous category_id (parse_price_int item.price)) &&
  !is_accessory_title item.name category_id (parse_price_int item.price)
      (if ENABLE_PRICE_FILTER then get_baseline_mean st category_id else none) &&
  !price_is_outlier st category_id (parse_price_int item.price) &&
  ["서울", "서울시", "서울특별시"].contains (normStr (parse_location item.location).1)

/-- The spec's reading of the accessory classifier (C6, spec section 4.2
item 3): reject exactly when an accessory keyword is present, no inclusion
phrase is present, and (an accessory-only qualifier is present, or no
strong device hint is present, or the price is far below the baseline
mean, in the sense of the source's threshold). -/
def claimed_is_accessory (title : String) (category_id : Nat)
    (price : Option Int) (baseline_mean : Option ℚ) : Bool :=
  let t := normStr title
  contains_any t (ACCESSORY_CORE category_id) &&
  !contains_any t INCLUSION_PHRASES &&
  (contains_any t ACCESSORY_ONLY_HINTS ||
   !contains_any t (DEVICE_STRONG_HINTS category_id) ||
   (match price, baseline_mean with
    | some p, some m => decide (m ≠ 0 ∧ (p : ℚ) < max 50000 (m * (25 / 100)))
    | _, _ => false))

/-- A minimal already-seen search item: only its pid matters, because the
seen-set check short-circuits before any other field is read. -/
def mkSeenBg (p : String) : BgItem :=
  ⟨some p, false, none, "x", "", "", "", none⟩

/-- A new, admissible search item located in Seoul with an in-range price
and a plain device-body title. -/
def newBg (p : String) : BgItem :=
  ⟨some p, false, none, "아이폰 14 본체", "500000", "서울 강남구 역삼동", "0", none⟩

/-- A full page (100 items): 99 already-seen items followed by one new
item, so the consecutive-seen counter passes the threshold of 30 long
before the page ends. -/
def cPage0 : List BgItem := List.replicate 99 (mkSeenBg "s0") ++ [newBg "n1"]

/-- A later page holding one new item. -/
def cPage1 : List BgItem := [newBg "n2"]

/-- Crawl state whose seen set already holds the pid of the seen items. -/
def cState0 : CrawlState := ⟨["s0"], [], [], []⟩

/-! ## Ingestion upsert (app/services/ingest.py)

`upsert_items` inserts raw items into the `items` table with
insert-or-update semantics on the unique constraint
`ux_items_source_external` over (source, external_id).  The raw item is
modelled with the fields `upsert_items` reads (`price`, `price_text`,
`gu`, `dong`, `title`, `url`, `source`, `external_id`, `category_id`);
the `items` table is a list of rows; `NOW()` is the `now` parameter. -/

structure IngestRawItem where
  source : String
  external_id : String
  category_id : Option Nat
  title : Option String
  price : Option Int
  price_text : Option String
  url : String
  gu : Option String
  dong : Option String
deriving DecidableEq

/-- The characters removed by `parse_price_to_int` before its checks
(`.replace(",", "").replace("원", "").replace(" ", "")`, each a
single-character replacement, hence a filter). -/
def stripPrice (s : String) : List Char :=
  s.data.filter (fun c => !(c == ',' || c == '원' || c == ' '))

/-- The free/negotiable/inquire sentinels of `parse_price_to_int`. -/
def priceSentinels : List String := ["나눔", "무료", "가격", "문의"]

/-- `parse_price_to_int` (ingest.py lines 6-11): empty or missing text,
a sentinel, and digit-free text all parse to absent; otherwise the value
is the concatenated digits. -/
def parse_price_to_int (price_text : Option String) : Option Int :=
  match price_text with
  | none => none
  | some s =>
      if s == "" then none
      else
        let t := stripPrice s
        if priceSentinels.any (fun k => infixOfB k.data t) then none
        else
          let digits := t.filter Char.isDigit
          if digits.isEmpty then none else some (digitsToNat digits)

/-- `find_region_id` (ingest.py lines 13-19): the first `emd` row whose
name equals the truthy `dong`; the `gu` argument is unused by the code. -/
def find_region_id (emds : List (Nat × String)) (gu dong : Option String) :
    Option Nat :=
  match dong with
  | none => none
  | some d =>
      if d == "" then none
      else
        match emds.find? (fun e => e.2 == d) with
        | some e => some e.1
        | none => none

/-- One row of the `items` table (the columns the upsert touches). -/
structure ItemsRow where
  region_id : Option Nat
  category_id : Nat
  title : String
  price : Int
  status : String
  url : String
  source : String
  external_id : String
  updated_at : Option Nat
deriving DecidableEq

def rowKey (row : ItemsRow) : String × String := (row.source, row.external_id)

/-- Count of rows carrying a (source, external_id) key. -/
def keyCount (table : List ItemsRow) (k : String × String) : Nat :=
  table.countP (fun row => rowKey row == k)

/-- The (source, external_id) uniqueness invariant of the `items` table. -/
def uniqueKeys (table : List ItemsRow) : Prop := (table.map rowKey).Nodup

/-- The bound parameters of the INSERT of `upsert_items` for one raw item:
`price` falls back to the parsed price text and then to 0; `title` falls
back to the empty string; `category_id` falls back to the default on a
falsy (absent or zero) value; the region is resolved from the `emd`
table.  The inserted status is the literal '판매중'; `updated_at` is the
insertion instant (the column's database default). -/
def mkInsertRow (now : Nat) (emds : List (Nat × String))
    (r : IngestRawItem) (default_category_id : Nat) : ItemsRow :=
  { region_id := find_region_id emds r.gu r.dong
    category_id :=
      match r.category_id with
      | some c => if c == 0 then default_category_id else c
      | none => default_category_id
    title := r.title.getD ""
    price :=
      (match r.price with
       | some p => some p
       | none => parse_price_to_int r.price_text).getD 0
    status := "판매중"
    url := r.url
    source := r.source
    external_id := r.external_id
    updated_at := some now }

/-- One `INSERT ... ON CONFLICT ON CONSTRAINT ux_items_source_external DO
UPDATE` execution (ingest.py lines 22-30).  The bound title and price
parameters are never NULL (they fall back to "" and 0), so the
`COALESCE(EXCLUDED.x, items.x)` of the update resolves to the excluded
(new) value; the update also sets `updated_at = NOW()`. -/
def upsert_one (now : Nat) (table : List ItemsRow) (p : ItemsRow) :
    List ItemsRow :=
  if table.any (fun row =>
      row.source == p.source && row.external_id == p.external_id) then
    table.map (fun row =>
      if row.source == p.source && row.external_id == p.external_id then
        { row with title := p.title, price := p.price, updated_at := some now }
      else row)
  else table ++ [p]

/-- `upsert_items` (ingest.py lines 21-45): upsert every raw row in order
and count the processed rows. -/
def upsert_items (now : Nat) (emds : List (Nat × String))
    (table : List ItemsRow) (rows : List IngestRawItem)
    (default_category_id : Nat) : List ItemsRow × Nat :=
  rows.foldl
    (fun acc r =>
      (upsert_one now acc.1 (mkInsertRow now emds r default_category_id),
       acc.2 + 1))
    (table, 0)

/-! ## Price statistics aggregator (sku_pipline.py lines 259-364)

`aggregate_price_stats` reads every row of `items` (ordered by
`created_at DESC` — the `items` list argument is that result set), keeps
those with a resolved SKU, groups prices by (sku, region, bucket) with a
`defaultdict(list)`, and upserts count/sum/avg/min/max per key with
`ON CONFLICT ... DO UPDATE` replacing all five fields.  Python datetimes
are a (year, month, day, hour, minute, second, microsecond) record; the
statistics store is a finite map from keys to field tuples; float
averages are exact rationals. -/

structure PyDateTime where
  year : Nat
  month : Nat
  day : Nat
  hour : Nat
  minute : Nat
  second : Nat
  microsecond : Nat
deriving DecidableEq

def isLeap (y : Nat) : Bool := (y % 4 == 0 && y % 100 != 0) || y % 400 == 0

def daysBeforeMonth (y m : Nat) : Nat :=
  [0, 31, 59, 90, 120, 151, 181, 212, 243, 273, 304, 334].getD (m - 1) 0 +
    (if 2 < m && isLeap y then 1 else 0)

/-- Proleptic-Gregorian day ordinal (day 1 = 0001-01-01, as in Python's
`date.toordinal`). -/
def toOrdinal (y m d : Nat) : Nat :=
  365 * (y - 1) + (y - 1) / 4 - (y - 1) / 100 + (y - 1) / 400 +
    daysBeforeMonth y m + d

/-- Python `datetime.weekday()`: Monday is 0.  0001-01-01 (ordinal 1) is a
Monday. -/
def pyWeekday (dt : PyDateTime) : Nat :=
  (toOrdinal dt.year dt.month dt.day + 6) % 7

def daysInMonth (y m : Nat) : Nat :=
  if m = 2 then (if isLeap y then 29 else 28)
  else [31, 28, 31, 30, 31, 30, 31, 31, 30, 31, 30, 31].getD (m - 1) 31

/-- Subtract up to 27 days from a date (enough for `dt -
timedelta(days=dt.weekday())`, where the subtrahend is at most 6): at most
one month boundary is crossed. -/
def subDaysSmall (y m d k : Nat) : Nat × Nat × Nat :=
  if k < d then (y, m, d - k)
  else if m = 1 then (y - 1, 12, 31 - (k - d))
  else (y, m - 1, daysInMonth y (m - 1) - (k - d))

/-- `truncate_to_bucket` (sku_pipline.py lines 348-364). -/
def truncate_to_bucket (dt : PyDateTime) (interval : String) : PyDateTime :=
  if interval == "day" then
    { dt with hour := 0, minute := 0, second := 0, microsecond := 0 }
  else if interval == "week" then
    let ymd := subDaysSmall dt.year dt.month dt.day (pyWeekday dt)
    { year := ymd.1, month := ymd.2.1, day := ymd.2.2,
      hour := 0, minute := 0, second := 0, microsecond := 0 }
  else if interval == "month" then
    { dt with day := 1, hour := 0, minute := 0, second := 0, microsecond := 0 }
  else dt

/-- One row of the aggregation input query (`SELECT item_id, category_id,
region_id, price, created_at FROM items ORDER BY created_at DESC`); the
row's status column is carried along but never read by the query or the
loop. -/
structure AggItem where
  item_id : Nat
  category_id : Nat
  region_id : Option Nat
  price : Int
  created_at : PyDateTime
  status : String
deriving DecidableEq

/-- Statistics bucket key: (sku_id, region_id, bucket timestamp). -/
def AggKey : Type := Nat × Option Nat × PyDateTime

instance : DecidableEq AggKey := by
  unfold AggKey
  infer_instance

/-- `sku_map.get(item_id)` followed by Python's `if not sku_id: continue`
(both a missing and a zero sku id are skipped). -/
def skuOf (skuMap : Nat → Option Nat) (i : AggItem) : Option Nat :=
  match skuMap i.item_id with
  | none => none
  | some s => if s == 0 then none else some s

/-- First value bound to a key in an association list. -/
def lookupA {κ ν : Type} [DecidableEq κ] : List (κ × ν) → κ → Option ν
  | [], _ => none
  | e :: rest, k => if e.1 = k then some e.2 else lookupA rest k

/-- `stats_data[key].append(price)` on a `defaultdict(list)`: append to
the existing entry, or append a new singleton entry at the end. -/
def addToGroup {κ : Type} [DecidableEq κ] (acc : List (κ × List Int))
    (k : κ) (p : Int) : List (κ × List Int) :=
  match lookupA acc k with
  | some _ => acc.map (fun e => if e.1 = k then (e.1, e.2 ++ [p]) else e)
  | none => acc ++ [(k, [p])]

/-- The body of the grouping loop of `aggregate_price_stats` (lines
292-308): skip items without a resolved SKU, append the price to the
item's bucket otherwise. -/
def aggStep (skuMap : Nat → Option Nat) (interval : String)
    (acc : List (AggKey × List Int)) (item : AggItem) :
    List (AggKey × List Int) :=
  match skuOf skuMap item with
  | none => acc
  | some sku =>
      addToGroup acc
        (sku, item.region_id, truncate_to_bucket item.created_at interval)
        item.price

/-- The grouping loop of `aggregate_price_stats` (lines 292-308). -/
def buildStats (skuMap : Nat → Option Nat) (interval : String)
    (items : List AggItem) : List (AggKey × List Int) :=
  items.foldl (aggStep skuMap interval) []

/-- The five derived columns of one `price_stats` row. -/
structure StatsFields where
  items_num : Nat
  sum_price : Int
  avg_price : ℚ
  min_price : Int
  max_price : Int
deriving DecidableEq

/-- count/sum/avg/min/max of one bucket's price list (lines 315-320);
the list is never empty when this is applied. -/
def mkFields (prices : List Int) : StatsFields :=
  let s := prices.foldl (fun a b => a + b) 0
  { items_num := prices.length
    sum_price := s
    avg_price := (s : ℚ) / (prices.length : ℚ)
    min_price := match prices with | [] => 0 | h :: t => t.foldl min h
    max_price := match prices with | [] => 0 | h :: t => t.foldl max h }

/-- The `price_stats` table as a finite map over its primary key. -/
def StatsStore : Type := AggKey → Option StatsFields

/-- `INSERT ... ON CONFLICT (sku_id, region_id, bucket_ts) DO UPDATE SET`
replacing all five derived fields (lines 322-333). -/
def statsUpsert (store : StatsStore) (k : AggKey) (f : StatsFields) :
    StatsStore :=
  fun k2 => if k2 = k then some f else store k2

/-- `aggregate_price_stats`: group, derive, and upsert every bucket. -/
def aggregate_price_stats (skuMap : Nat → Option Nat) (items : List AggItem)
    (interval : String) (store : StatsStore) : StatsStore :=
  (buildStats skuMap interval items).foldl
    (fun st e => statsUpsert st e.1 (mkFields e.2)) store

/-- The prices of the items that belong to a bucket key — over all
listings with a resolved SKU, whatever their status (what the code
aggregates). -/
def pricesForAll (skuMap : Nat → Option Nat) (interval : String)
    (items : List AggItem) (k : AggKey) : List Int :=
  (items.filter (fun i => decide (skuOf skuMap i = some k.1 ∧
    i.region_id = k.2.1 ∧
    truncate_to_bucket i.created_at interval = k.2.2))).map AggItem.price

/-- The from-scratch statistics row over all listings of a bucket. -/
def statsRowAll (skuMap : Nat → Option Nat) (interval : String)
    (items : List AggItem) (k : AggKey) : Option StatsFields :=
  let l := pricesForAll skuMap interval items k
  if l.isEmpty then none else some (mkFields l)

/-- The statistics row the spec asks for (C4): computed over the
currently *active* listings of the bucket only. -/
def statsRowActive (skuMap : Nat → Option Nat) (interval : String)
    (items : List AggItem) (k : AggKey) : Option StatsFields :=
  let l := (items.filter (fun i => decide (i.status = "active" ∧
    skuOf skuMap i = some k.1 ∧
    i.region_id = k.2.1 ∧
    truncate_to_bucket i.created_at interval = k.2.2))).map AggItem.price
  if l.isEmpty then none else some (mkFields l)

/-! ## Analytics query service (app/services/analytics.py) and its API
boundary (app/api/v1/analytics.py)

The SQLite database behind the async session is modelled as lists of
rows; `julianday('now')` is a rational `jnow` parameter on the same day
scale as the bucket timestamps (which are proleptic-Gregorian day
ordinals, so the constant offset to real Julian day numbers cancels in
every difference the code takes); raised Python exceptions are `Except`
errors; the float averages are exact rationals. -/

structure OptionRow where
  attribute_code : String
  value : String
  option_id : Nat
deriving DecidableEq

structure SkuRow where
  sku_id : Nat
  category_id : Nat
  fingerprint : String
deriving DecidableEq

structure EmdRow where
  region_id : Nat
  name : String
  sgg_id : Nat
deriving DecidableEq

structure SggRow where
  sgg_id : Nat
  name : String
  sd_id : Nat
deriving DecidableEq

structure SdRow where
  sd_id : Nat
  name : String
deriving DecidableEq

structure PriceStatsRow where
  sku_id : Nat
  region_id : Nat
  bucket_ts : Nat
  items_num : Nat
  sum_price : Int
  avg_price : ℚ
  min_price : Int
  max_price : Int
deriving DecidableEq

structure AnItemRow where
  sku_id : Option Nat
  region_id : Option Nat
  price : Int
  status : String
  source : String
  url : String
deriving DecidableEq

structure AnalyticsDB where
  options : List OptionRow
  skus : List SkuRow
  emds : List EmdRow
  sggs : List SggRow
  sds : List SdRow
  stats : List PriceStatsRow
  items : List AnItemRow
deriving DecidableEq

/-- The request's sparse spec (schemas/analytics.py `Spec`), after
`payload.spec.dict()`. -/
structure SpecReq where
  model : Option String
  storage : Option String
  color : Option String
  chip : Option String
  ram : Option String
  screen_size : Option String
  size : Option String
  material : Option String
  connectivity : Option String
  cellular : Option String
  pencil_support : Option Bool
deriving DecidableEq

/-- The request's sparse region filter, after `payload.region.dict()`. -/
structure RegionReq where
  sd : Option String
  sgg : Option String
  emd : Option String
deriving DecidableEq

/-- A Python value found in the spec dict: a string, or the
`pencil_support` boolean. -/
inductive PyVal where
  | vstr (s : String)
  | vbool (b : Bool)
deriving DecidableEq

/-- Python `str(value)`. -/
def pyStr : PyVal → String
  | .vstr s => s
  | .vbool b => if b then "True" else "False"

/-- Python truthiness of a spec value. -/
def pyTruthy : PyVal → Bool
  | .vstr s => !(s == "")
  | .vbool b => b

/-- Raised Python exceptions crossing the service boundary. -/
inductive PyErr where
  | valueError (msg : String)
  | httpException (status : Nat) (detail : String)
deriving DecidableEq

def lowerStr (s : String) : String := String.mk (s.data.map Char.toLower)

def PRODUCT2CATEGORY : List (String × Nat) :=
  [("iPhone", 1), ("iPad", 2), ("MacBook", 3), ("AppleWatch", 4),
   ("AirPods", 5)]

def supported_fields : List String :=
  ["model", "storage", "color", "chip", "ram", "screen_size",
   "size", "material", "connectivity", "cellular", "pencil_support"]

/-- `sorted(spec.items(), key by key)`: the 11 spec fields in alphabetical
key order. -/
def specItemsSorted (sp : SpecReq) : List (String × Option PyVal) :=
  [("cellular", sp.cellular.map PyVal.vstr),
   ("chip", sp.chip.map PyVal.vstr),
   ("color", sp.color.map PyVal.vstr),
   ("connectivity", sp.connectivity.map PyVal.vstr),
   ("material", sp.material.map PyVal.vstr),
   ("model", sp.model.map PyVal.vstr),
   ("pencil_support", sp.pencil_support.map PyVal.vbool),
   ("ram", sp.ram.map PyVal.vstr),
   ("screen_size", sp.screen_size.map PyVal.vstr),
   ("size", sp.size.map PyVal.vstr),
   ("storage", sp.storage.map PyVal.vstr)]

/-- SQL LIKE prefix match of a wildcard-free-%, `_`-wildcard pattern. -/
def likePrefix : List Char → List Char → Bool
  | [], _ => true
  | _ :: _, [] => false
  | c :: cs, x :: xs => (c == '_' || c == x) && likePrefix cs xs

/-- SQL LIKE containment of the inner pattern anywhere in the text. -/
def likeInfix (pat : List Char) : List Char → Bool
  | [] => likePrefix pat []
  | x :: xs => likePrefix pat (x :: xs) || likeInfix pat xs

/-- `fingerprint LIKE :pattern` where every bound pattern of
`fetch_sku_id_with_fingerprint` has the shape "%inner%" with no `%` in
the inner part (a `_` inside — as in `screen_size` — matches any single
character). -/
def sqlLikeContains (pattern : String) (s : String) : Bool :=
  likeInfix (pattern.data.drop 1).dropLast s.data

/-- The option-id subquery of `fetch_sku_id_with_fingerprint` (analytics.py
lines 62-70): first option row whose lowered attribute code and lowered
value match. -/
def lookupOptionId (db : AnalyticsDB) (code value : String) : Option Nat :=
  (db.options.find? (fun o =>
    lowerStr o.attribute_code == code && lowerStr o.value == value)).map
    (fun o => o.option_id)

/-- The spec-field loop of `fetch_sku_id_with_fingerprint` (lines 42-81):
accumulates the display name and the LIKE patterns; an unresolvable
option value ends the whole call early with an empty SKU list (the
`Except.error` carries the name for that early return). -/
def skuLoopGo (db : AnalyticsDB) :
    List (String × Option PyVal) → String → List String →
    Except String (List String × String)
  | [], name, conds => .ok (conds, name)
  | (key, val) :: rest, name, conds =>
      match val with
      | none => skuLoopGo db rest name conds
      | some v =>
          if !pyTruthy v || !(supported_fields.contains key) then
            skuLoopGo db rest name conds
          else
            let name2 := name ++ " " ++ pyStr v
            let code := lowerStr key
            if code == "storage" then
              let sval := String.mk (digitChars (pyStr v))
              if sval == "" then skuLoopGo db rest name2 conds
              else
                skuLoopGo db rest name2
                  (conds ++ ["%storage=i:" ++ sval ++ "%"])
            else
              match lookupOptionId db code (lowerStr (pyStr v)) with
              | some oid =>
                  skuLoopGo db rest name2
                    (conds ++ ["%" ++ code ++ "=o:" ++ toString oid ++ "%"])
              | none => .error name2

/-- `fetch_sku_id_with_fingerprint` (analytics.py lines 11-100). -/
def fetch_sku_id_with_fingerprint (db : AnalyticsDB) (product : String)
    (sp : SpecReq) : Except PyErr (List Nat × String) :=
  if !(match sp.model with | some m => !(m == "") | none => false) then
    .error (.valueError "Model specification is required")
  else
    match (PRODUCT2CATEGORY.find? (fun p => p.1 == product)).map
        (fun p => p.2) with
    | none => .error (.valueError "Unsupported product")
    | some category_id =>
        match skuLoopGo db (specItemsSorted sp) product [] with
        | .error name => .ok ([], name)
        | .ok (conds, name) =>
            let ids := (db.skus.filter (fun s =>
              s.category_id == category_id &&
              conds.all (fun c => sqlLikeContains c s.fingerprint))).map
              (fun s => s.sku_id)
            if ids.isEmpty then
              .error (.valueError "No SKU found matching the specifications")
            else .ok (ids, name)

/-- The emd-sgg-sd join with the optional name filters of
`fetch_region_id` (analytics.py lines 119-135). -/
def regionRowMatch (db : AnalyticsDB) (region : RegionReq)
    (em : EmdRow) : Bool :=
  match db.sggs.find? (fun g => g.sgg_id == em.sgg_id) with
  | none => false
  | some g =>
      match db.sds.find? (fun d => d.sd_id == g.sd_id) with
      | none => false
      | some d =>
          (match region.sd with
           | some sdv =>
               if sdv == "" then true else lowerStr d.name == lowerStr sdv
           | none => true) &&
          (match region.sgg with
           | some sgv =>
               if sgv == "" then true else lowerStr g.name == lowerStr sgv
           | none => true)

/-- `fetch_region_id` (analytics.py lines 102-141).  The request's region
dict always holds its three keys, so Python's `if not region` guard never
fires; a falsy `emd` returns no region; otherwise the first joined match
is required. -/
def fetch_region_id (db : AnalyticsDB) (region : RegionReq) :
    Except PyErr (Option Nat) :=
  match region.emd with
  | none => .ok none
  | some e =>
      if e == "" then .ok none
      else
        match db.emds.find? (fun em =>
            lowerStr em.name == lowerStr e && regionRowMatch db region em) with
        | none => .error (.valueError "Region not found with given sd/sgg/emd")
        | some em => .ok (some em.region_id)

/-- Truncation toward zero of a rational, as Python `int(x)` and SQL
`CAST(x AS INTEGER)` (the Lean `Int` division truncates toward zero). -/
def intOfRat (q : ℚ) : Int := q.num / (q.den : Int)

def listMaxInt : List Int → Int
  | [] => 0
  | h :: t => t.foldl max h

def listMinInt : List Int → Int
  | [] => 0
  | h :: t => t.foldl min h

/-- First-occurrence deduplication (SQL GROUP BY key enumeration). -/
def dedupGo {α : Type} [DecidableEq α] : List α → List α → List α
  | _, [] => []
  | seen, x :: xs =>
      if x ∈ seen then dedupGo seen xs
      else x :: dedupGo (seen ++ [x]) xs

def dedupList {α : Type} [DecidableEq α] (l : List α) : List α := dedupGo [] l

/-- Largest bucket timestamp of a (sku, region) group. -/
def maxBucketOf (base : List PriceStatsRow) (sk rid : Nat) : Nat :=
  (base.filter (fun b => b.sku_id == sk && b.region_id == rid)).foldl
    (fun m b => max m b.bucket_ts) 0

/-- Membership in the `latest` CTE join of the analytics queries: the
row's (sku, region) pair occurs in the filtered base set and its bucket is
that pair's maximum. -/
def inLatest (base : List PriceStatsRow) (ps : PriceStatsRow) : Bool :=
  base.any (fun b => b.sku_id == ps.sku_id && b.region_id == ps.region_id) &&
  maxBucketOf base ps.sku_id ps.region_id == ps.bucket_ts

/-- A region (emd id) lies under a province of the given name
(the `EXISTS emd-sgg-sd` subqueries with `LOWER(sd.name) = :sd_name`). -/
def regionInSd (db : AnalyticsDB) (rid : Nat) (sdName : String) : Bool :=
  db.emds.any (fun em => em.region_id == rid &&
    (match db.sggs.find? (fun g => g.sgg_id == em.sgg_id) with
     | none => false
     | some g =>
         match db.sds.find? (fun d => d.sd_id == g.sd_id) with
         | none => false
         | some d => lowerStr d.name == lowerStr sdName))

/-- The (sgg name, emd name) of a region through the emd-sgg join. -/
def pairNames (db : AnalyticsDB) (rid : Nat) : Option (String × String) :=
  match db.emds.find? (fun em => em.region_id == rid) with
  | none => none
  | some em =>
      match db.sggs.find? (fun g => g.sgg_id == em.sgg_id) with
      | none => none
      | some g => some (g.name, em.name)

/-- The (sd name, sgg name, emd name) of a region through the full
emd-sgg-sd join. -/
def joinNames (db : AnalyticsDB) (rid : Nat) :
    Option (String × String × String) :=
  match db.emds.find? (fun em => em.region_id == rid) with
  | none => none
  | some em =>
      match db.sggs.find? (fun g => g.sgg_id == em.sgg_id) with
      | none => none
      | some g =>
          match db.sds.find? (fun d => d.sd_id == g.sd_id) with
          | none => none
          | some d => some (d.name, g.name, em.name)

def sumNatL (l : List Nat) : Nat := l.foldl (fun a b => a + b) 0

def sumQL (l : List ℚ) : ℚ := l.foldl (fun a b => a + b) 0

/-- The weighted-average numerator SUM(avg_price * items_num). -/
def wsumOf (l : List PriceStatsRow) : ℚ :=
  sumQL (l.map (fun ps => ps.avg_price * (ps.items_num : ℚ)))

/-- The response summary block (schemas SummaryInfo); `data_date` is
`none` where the source carries the empty string or null. -/
structure SummaryInfo where
  model_name : String
  average_price : Int
  highest_listing_price : Int
  lowest_listing_price : Int
  listing_count : Int
  data_date : Option Nat
deriving DecidableEq

/-- `fetch_summary_info` (analytics.py lines 143-240): zero summary on an
empty SKU list; with no region, Seoul-scoped latest buckets and a 404 when
none exist; with a region, COALESCEd aggregates over that region's latest
buckets and no error path. -/
def fetch_summary_info (db : AnalyticsDB) (sku_ids : List Nat)
    (region_id : Option Nat) (model_name : String) :
    Except PyErr SummaryInfo :=
  if sku_ids.isEmpty then
    .ok ⟨model_name, 0, 0, 0, 0, none⟩
  else
    match region_id with
    | none =>
        let base := db.stats.filter (fun ps => sku_ids.contains ps.sku_id &&
          regionInSd db ps.region_id "서울특별시")
        let matched := db.stats.filter (fun ps => inLatest base ps)
        if matched.isEmpty then
          .error (.httpException 404
            "No price statistics found for Seoul (서울특별시).")
        else
          let cnt := sumNatL (matched.map (fun ps => ps.items_num))
          let avgQ : ℚ :=
            if cnt = 0 then 0 else wsumOf matched / (cnt : ℚ)
          .ok ⟨model_name, intOfRat avgQ,
               listMaxInt (matched.map (fun ps => ps.max_price)),
               listMinInt (matched.map (fun ps => ps.min_price)),
               (cnt : Int),
               some ((matched.map (fun ps => ps.bucket_ts)).foldl max 0)⟩
    | some rid =>
        let base := db.stats.filter (fun ps => sku_ids.contains ps.sku_id &&
          ps.region_id == rid)
        let matched := db.stats.filter (fun ps => inLatest base ps)
        let cnt := sumNatL (matched.map (fun ps => ps.items_num))
        let avgQ : ℚ :=
          if cnt = 0 then 0 else wsumOf matched / (cnt : ℚ)
        .ok ⟨model_name, intOfRat avgQ,
             listMaxInt (matched.map (fun ps => ps.max_price)),
             listMinInt (matched.map (fun ps => ps.min_price)),
             (cnt : Int),
             if matched.isEmpty then none
             else some ((matched.map (fun ps => ps.bucket_ts)).foldl max 0)⟩

/-- One row of the regional breakdown. -/
structure DistrictRow where
  sgg : String
  emd : String
  average_price : Int
  listing_count : Int
deriving DecidableEq

/-- `fetch_regional_analysis` (analytics.py lines 242-369). -/
def fetch_regional_analysis (db : AnalyticsDB) (sku_ids : List Nat)
    (region : RegionReq) : Except PyErr (List DistrictRow) :=
  if sku_ids.isEmpty then .ok []
  else
    let sggTruthy := match region.sgg with
      | some s => !(s == "")
      | none => false
    let emdTruthy := match region.emd with
      | some s => !(s == "")
      | none => false
    if !sggTruthy || !emdTruthy then
      let base := db.stats.filter (fun ps => sku_ids.contains ps.sku_id &&
        regionInSd db ps.region_id "서울특별시")
      let matched := db.stats.filter (fun ps => inLatest base ps)
      let regions := dedupList (matched.map (fun ps => ps.region_id))
      let rows := regions.filterMap (fun r =>
        match pairNames db r with
        | none => none
        | some names =>
            let grp := matched.filter (fun ps => ps.region_id == r)
            let ti := sumNatL (grp.map (fun ps => ps.items_num))
            let avg : Int :=
              if ti = 0 then 0 else intOfRat (wsumOf grp / (ti : ℚ))
            some ⟨names.1, names.2, avg, (ti : Int)⟩)
      let sorted := List.insertionSort
        (fun a b : DistrictRow => a.average_price ≤ b.average_price) rows
      if sorted.isEmpty then
        .error (.httpException 404 "No price statistics found for Seoul.")
      else .ok sorted
    else
      let sgv := (region.sgg.getD "")
      let sdOk := fun (sdName : String) =>
        match region.sd with
        | some sdv => if sdv == "" then true
                      else lowerStr sdName == lowerStr sdv
        | none => true
      let base := db.stats.filter (fun ps => sku_ids.contains ps.sku_id)
      let matched := db.stats.filter (fun ps => inLatest base ps &&
        sku_ids.contains ps.sku_id &&
        (match joinNames db ps.region_id with
         | none => false
         | some t => lowerStr t.2.1 == lowerStr sgv && sdOk t.1))
      let keys := dedupList (matched.filterMap (fun ps =>
        (joinNames db ps.region_id).map (fun t => (t.2.1, t.2.2))))
      let rows := keys.map (fun key =>
        let grp := matched.filter (fun ps =>
          (joinNames db ps.region_id).map (fun t => (t.2.1, t.2.2)) ==
            some key)
        let ti := sumNatL (grp.map (fun ps => ps.items_num))
        let avg : Int :=
          if ti = 0 then 0 else intOfRat (wsumOf grp / (ti : ℚ))
        DistrictRow.mk key.1 key.2 avg (ti : Int))
      let sorted := List.insertionSort
        (fun a b : DistrictRow => a.average_price < b.average_price ∨
          (a.average_price = b.average_price ∧
            (charListLt a.emd.data b.emd.data || a.emd.data == b.emd.data) =
              true)) rows
      .ok sorted

/-- Round half to even at the given rational (Python `round(x, 2)` is
banker's rounding; exact on the rational model). -/
def roundHalfEven (q : ℚ) : Int :=
  let f := Rat.floor q
  let r := q - (f : ℚ)
  if r < 1 / 2 then f
  else if 1 / 2 < r then f + 1
  else if f % 2 = 0 then f else f + 1

def round2 (q : ℚ) : ℚ := (roundHalfEven (q * 100) : ℚ) / 100

structure TrendPoint where
  price : Int
  period : Nat
deriving DecidableEq

structure TrendResult where
  trend_period : Nat
  change_rate : ℚ
  chart_data : List TrendPoint
deriving DecidableEq

/-- `fetch_price_trend` (analytics.py lines 371-467): weekly weighted
averages over the last 28 days, most recent week first (the code does not
re-reverse the rows), change rate from the most recent to the oldest
returned week. -/
def fetch_price_trend (db : AnalyticsDB) (sku_ids : List Nat)
    (region_id : Option Nat) (jnow : ℚ) : Except PyErr TrendResult :=
  if sku_ids.isEmpty then .error (.httpException 404 "No SKU IDs provided")
  else
    let wd := db.stats.filter (fun ps => sku_ids.contains ps.sku_id &&
      (match region_id with
       | some rid => ps.region_id == rid
       | none => true) &&
      decide (jnow - (ps.bucket_ts : ℚ) ≤ 28))
    let weeksOf : PriceStatsRow → Int := fun ps =>
      intOfRat ((jnow - (ps.bucket_ts : ℚ)) / 7)
    let keys := dedupList (wd.map weeksOf)
    let groups := keys.map (fun w =>
      let grp := wd.filter (fun ps => weeksOf ps == w)
      let ti := sumNatL (grp.map (fun ps => ps.items_num))
      let price : Int :=
        if ti = 0 then 0 else intOfRat (wsumOf grp / (ti : ℚ))
      (w, TrendPoint.mk price ((grp.map (fun ps => ps.bucket_ts)).foldl max 0)))
    let sorted := (List.insertionSort
      (fun a b : Int × TrendPoint => a.1 ≤ b.1) groups).take 4
    let rows := sorted.map (fun g => g.2)
    let trend_period := rows.length
    let change_rate : ℚ :=
      if 2 ≤ trend_period ∧ 0 < (rows.headD ⟨0, 0⟩).price then
        round2 (((((rows.getLastD ⟨0, 0⟩).price : ℚ) -
          ((rows.headD ⟨0, 0⟩).price : ℚ)) /
            ((rows.headD ⟨0, 0⟩).price : ℚ)) * 100)
      else 0
    .ok ⟨trend_period, change_rate, rows⟩

structure LowListing where
  listing_price : Int
  sgg : String
  emd : String
  source : String
  source_url : String
deriving DecidableEq

/-- `fetch_lowest_listings` (analytics.py lines 469-518); note Python's
`if not region_id` also treats region id 0 as no region. -/
def fetch_lowest_listings (db : AnalyticsDB) (sku_ids : List Nat)
    (region_id : Option Nat) (limit : Nat) : Except PyErr (List LowListing) :=
  if sku_ids.isEmpty then .ok []
  else
    let regionFalsy := match region_id with
      | none => true
      | some r => r == 0
    let joined := db.items.filterMap (fun i =>
      if (match i.sku_id with
          | some s => sku_ids.contains s
          | none => false) &&
         i.status == "active" &&
         (regionFalsy ||
          (match region_id with
           | some rid => i.region_id == some rid
           | none => false)) then
        match i.region_id with
        | none => none
        | some rid =>
            match pairNames db rid with
            | none => none
            | some names =>
                some (LowListing.mk i.price names.1 names.2 i.source i.url)
      else none)
    .ok ((List.insertionSort
      (fun a b : LowListing => a.listing_price ≤ b.listing_price)
      joined).take limit)

structure AnalyticsData where
  summary_info : SummaryInfo
  regional_analysis : List DistrictRow
  price_trend : TrendResult
  lowest_price_listings : List LowListing
deriving DecidableEq

/-- The response body of a successful analytics call. -/
structure AnalyticsResult where
  status : String
  data : AnalyticsData
deriving DecidableEq

/-- `run_analytics` (analytics.py lines 520-537): the awaited calls in
order, each raised exception propagating out. -/
def run_analytics (db : AnalyticsDB) (product : String) (sp : SpecReq)
    (region : RegionReq) (jnow : ℚ) : Except PyErr AnalyticsResult :=
  match fetch_sku_id_with_fingerprint db product sp with
  | .error e => .error e
  | .ok pair =>
      match fetch_region_id db region with
      | .error e => .error e
      | .ok region_id =>
          match fetch_summary_info db pair.1 region_id pair.2 with
          | .error e => .error e
          | .ok summary =>
              match fetch_regional_analysis db pair.1 region with
              | .error e => .error e
              | .ok regional =>
                  match fetch_price_trend db pair.1 region_id jnow with
                  | .error e => .error e
                  | .ok trend =>
                      match fetch_lowest_listings db pair.1 region_id 70 with
                      | .error e => .error e
                      | .ok lowest =>
                          .ok ⟨"success", ⟨summary, regional, trend, lowest⟩⟩

/-- What the HTTP caller receives: a JSON body (the structured outcome),
or a protocol-level error response (HTTP status + detail), produced
either by the route's `except ValueError` handler (status 400) or by
FastAPI rendering a raised `HTTPException`. -/
inductive ApiOutcome where
  | ok (body : AnalyticsResult)
  | httpError (status : Nat) (detail : String)
deriving DecidableEq

/-- `analytics_summary` (app/api/v1/analytics.py lines 13-18). -/
def analytics_summary (db : AnalyticsDB) (product : String) (sp : SpecReq)
    (region : RegionReq) (jnow : ℚ) : ApiOutcome :=
  match run_analytics db product sp region jnow with
  | .ok r => .ok r
  | .error (.valueError m) => .httpError 400 m
  | .error (.httpException c d) => .httpError c d

/-- A database holding exactly one SKU created by the SKU pipeline for
the attribute set {model: iPhone 13, storage: 256GB}, together with the
reference option row for that model value. -/
def dbOneSku : AnalyticsDB :=
  { options := [⟨"model", "iPhone 13", 7⟩]
    skus := [⟨1, 1,
      generate_fingerprint [("model", "iPhone 13"), ("storage", "256GB")]⟩]
    emds := []
    sggs := []
    sds := []
    stats := []
    items := [] }

/-- The spec asking exactly for that attribute set. -/
def specModelStorage : SpecReq :=
  { model := some "iPhone 13", storage := some "256GB", color := none,
    chip := none, ram := none, screen_size := none, size := none,
    material := none, connectivity := none, cellular := none,
    pencil_support := none }

/-- An empty analytics database. -/
def emptyDB : AnalyticsDB := ⟨[], [], [], [], [], [], []⟩

/-- An empty region filter. -/
def emptyRegion : RegionReq := ⟨none, none, none⟩

end HowMuch

namespace HowMuch

/-! # Theorems -/

/-- FIPS 180-4 test vector: the digest of the empty message. -/
theorem sha256_empty_vector :
    sha256HexOfString "" =
      "e3b0c44298fc1c149afbf4c8996fb92427ae41e4649b934ca495991b7852b855" := by
  decide

/-- FIPS 180-4 test vector: the digest of "abc". -/
theorem sha256_abc_vector :
    sha256HexOfString "abc" =
      "ba7816bf8f01cfea414140de5dae2223b00361a396177a9cb410ff61f20015ad" := by
  decide

/-- UTF-8 sanity check: Hangul syllable U+AC00 encodes as EA B0 80. -/
theorem utf8_hangul_vector : utf8Bytes "가" = [234, 176, 128] := by decide

/-- C1: `generate_fingerprint` returns the first 32 hex characters of the
SHA-256 digest of the attribute entries sorted by code and joined as
"code:value" pairs with the "|" delimiter, and mappings holding the same
set of (code, value) pairs in any iteration order get identical
fingerprints. -/
theorem fingerprint_sha256_prefix_and_order_independent :
    (∀ attrs : List (String × String),
      (generate_fingerprint attrs).data =
        (sha256HexOfString (joinAttrs (sortAttrs attrs))).data.take 32) ∧
    (∀ l1 l2 : List (String × String), l1.Perm l2 →
      generate_fingerprint l1 = generate_fingerprint l2) := by
  constructor
  · intro attrs
    rfl
  · intro l1 l2 hperm
    have hsorted : sortAttrs l1 = sortAttrs l2 := by
      apply List.eq_of_perm_of_sorted (r := pairLE)
      · exact (List.perm_insertionSort pairLE l1).trans
          (hperm.trans (List.perm_insertionSort pairLE l2).symm)
      · exact List.sorted_insertionSort pairLE l1
      · exact List.sorted_insertionSort pairLE l2
    unfold generate_fingerprint
    rw [hsorted]

/-- Witness for C1 at a concrete permuted pair of attribute mappings. -/
theorem fingerprint_order_independent_witness :
    ([("model", "iPhone 13"), ("color", "Blue")].Perm
        [("color", "Blue"), ("model", "iPhone 13")]) ∧
      generate_fingerprint [("model", "iPhone 13"), ("color", "Blue")] =
        generate_fingerprint [("color", "Blue"), ("model", "iPhone 13")] :=
  ⟨by decide,
   fingerprint_sha256_prefix_and_order_independent.2 _ _ (by decide)⟩

/-- C2 counterexample: the code performs no unit normalization before
fingerprinting, so the mappings writing the capacity as "1TB" and as
"1024GB" get different fingerprints, contrary to the claim. -/
theorem fingerprint_unit_normalization_counterexample :
    ¬ generate_fingerprint [("category", "laptop"), ("storage", "1TB")] =
        generate_fingerprint [("category", "laptop"), ("storage", "1024GB")] := by
  decide

/-- C7: for every category with a configured guard, `price_is_ridiculous`
rejects exactly the absent prices and the prices strictly outside the
inclusive [min, max] bounds; for the phone category the bounds are
30000 and 5000000, price 29999 is rejected, 30000 is admitted, and
5000001 is rejected. -/
theorem price_guard_inclusive_bounds :
    (∀ (c : Nat) (g : Guard) (p : Option Int), CATEGORY_PRICE_GUARD c = some g →
      (price_is_ridiculous c p = true ↔
        (p = none ∨ ∃ v, p = some v ∧ (v < g.min ∨ g.max < v)))) ∧
    CATEGORY_PRICE_GUARD IPHONE = some ⟨30000, 5000000⟩ ∧
    price_is_ridiculous IPHONE (some 29999) = true ∧
    price_is_ridiculous IPHONE (some 30000) = false ∧
    price_is_ridiculous IPHONE (some 5000001) = true := by
  refine ⟨?_, by decide, by decide, by decide, by decide⟩
  intro c g p hg
  cases p with
  | none => simp [price_is_ridiculous]
  | some v =>
      simp only [price_is_ridiculous, hg, Bool.not_eq_true', Option.some.injEq,
        reduceCtorEq, false_or]
      constructor
      · intro h
        refine ⟨v, rfl, ?_⟩
        by_contra hc
        push_neg at hc
        simp [hc.1, hc.2] at h
      · rintro ⟨w, hw, hcase⟩
        subst hw
        rcases hcase with h | h
        · simp [not_le.mpr h]
        · simp [not_le.mpr h]

/-- Witness for C7 at the phone category and price 29999. -/
theorem price_guard_inclusive_bounds_witness :
    price_is_ridiculous IPHONE (some 29999) = true ↔
      ((some 29999 : Option Int) = none ∨
        ∃ v, (some 29999 : Option Int) = some v ∧
          (v < (30000 : Int) ∨ (5000000 : Int) < v)) :=
  price_guard_inclusive_bounds.1 IPHONE ⟨30000, 5000000⟩ (some 29999) rfl

/-- C6 counterexample: on a title holding both an accessory keyword and a
strong device hint, with a price far below the baseline mean, the spec's
classifier (with its price disjunct) rejects, but the code admits — the
price disjunct never fires, because the strong-device-hint test returns
first. -/
theorem accessory_price_disjunct_counterexample :
    claimed_is_accessory "아이폰 케이스 본체" IPHONE (some 10000) (some 1000000) = true ∧
    is_accessory_title "아이폰 케이스 본체" IPHONE (some 10000) (some 1000000) = false := by
  constructor
  · decide
  · decide

/-- C6 amended: the classifier rejects a nonempty title exactly when it
contains an accessory keyword for the category, contains no inclusion
phrase, and (contains an accessory-only qualifier or no strong device-body
hint); the price plays no role in the decision.  The claim's examples
hold: the case-only phone title is rejected, the device-body title is
admitted. -/
theorem accessory_classifier_amended :
    (∀ (title : String) (c : Nat) (p : Option Int) (b : Option ℚ),
      is_accessory_title title c p b =
        (!(title == "") &&
         contains_any (normStr title) (ACCESSORY_CORE c) &&
         !contains_any (normStr title) INCLUSION_PHRASES &&
         (contains_any (normStr title) ACCESSORY_ONLY_HINTS ||
          !contains_any (normStr title) (DEVICE_STRONG_HINTS c)))) ∧
    is_accessory_title "아이폰 13 케이스 전용" IPHONE none none = true ∧
    is_accessory_title "아이폰 13 본체 128GB 미개봉" IPHONE none none = false := by
  refine ⟨?_, by decide, by decide⟩
  intro title c p b
  simp only [is_accessory_title, ENABLE_TITLE_FILTER, Bool.not_true,
    Bool.false_or]
  cases h0 : (title == "") with
  | true => simp
  | false =>
      simp only [if_false, Bool.not_false, Bool.true_and]
      cases hA : contains_any (normStr title) (ACCESSORY_CORE c) with
      | false => simp [hA]
      | true =>
          cases hI : contains_any (normStr title) INCLUSION_PHRASES with
          | true => simp [hI]
          | false =>
              cases hQ : contains_any (normStr title) ACCESSORY_ONLY_HINTS with
              | true => simp [hQ]
              | false =>
                  cases hS : contains_any (normStr title) (DEVICE_STRONG_HINTS c) with
                  | true => simp [hS]
                  | false =>
                      simp only [hS, if_false, Bool.not_false, Bool.or_true,
                        Bool.and_true]
                      cases p <;> cases b <;> simp

/-- The admitted/rejected outcome of `process_item` is: the pid is truthy,
not yet seen, and the filter chain (`admitsB`) admits the item. -/
theorem process_item_fst_eq (now : Nat) (st : CrawlState) (cat : Nat)
    (item : BgItem) :
    (process_item now st cat item).1 =
      (match pidVal item with
       | none => false
       | some p => !st.seen.contains p && admitsB st cat item) := by
  unfold process_item admitsB
  cases h : pidVal item with
  | none => simp
  | some p =>
      simp only [h]
      cases hseen : st.seen.contains p with
      | true => simp [hseen]
      | false =>
          simp only [hseen, Bool.not_false, Bool.true_and, Bool.false_eq_true,
            if_false]
          cases h1 : (item.ad || item.ty == some "EXT_AD") with
          | true => simp [h1]
          | false =>
              cases h2 : is_buying_or_service_title item.name with
              | true => simp [h2]
              | false =>
                  cases h3 : (ENABLE_PRICE_GUARD &&
                      price_is_ridiculous cat (parse_price_int item.price)) with
                  | true => simp [h3]
                  | false =>
                      cases h4 : is_accessory_title item.name cat
                          (parse_price_int item.price)
                          (if ENABLE_PRICE_FILTER then get_baseline_mean st cat
                           else none) with
                      | true => simp [h4]
                      | false =>
                          cases h5 : price_is_outlier st cat
                              (parse_price_int item.price) with
                          | true => simp [h5]
                          | false =>
                              cases h6 : (["서울", "서울시", "서울특별시"].contains
                                  (normStr (parse_location item.location).1)) with
                              | true => simp [h1, h2, h3, h4, h5, h6]
                              | false => simp [h1, h2, h3, h4, h5, h6]

/-- A rejected item changes neither the CSV rows nor the seen set (it may
still update the running mean). -/
theorem process_item_reject_preserves (now : Nat) (st : CrawlState)
    (cat : Nat) (item : BgItem)
    (h : (process_item now st cat item).1 = false) :
    (process_item now st cat item).2.rows = st.rows ∧
      (process_item now st cat item).2.seen = st.seen := by
  unfold process_item at h ⊢
  cases hp : pidVal item with
  | none => simp [hp]
  | some p =>
      simp only [hp] at h ⊢
      cases hseen : st.seen.contains p with
      | true => simp [hseen]
      | false =>
          simp only [hseen, Bool.false_eq_true, if_false] at h ⊢
          cases h1 : (item.ad || item.ty == some "EXT_AD") with
          | true => simp [h1]
          | false =>
              simp only [h1, Bool.false_eq_true, if_false] at h ⊢
              cases h2 : is_buying_or_service_title item.name with
              | true => simp [h2]
              | false =>
                  simp only [h2, Bool.false_eq_true, if_false] at h ⊢
                  cases h3 : (ENABLE_PRICE_GUARD &&
                      price_is_ridiculous cat (parse_price_int item.price)) with
                  | true => simp [h3]
                  | false =>
                      simp only [h3, Bool.false_eq_true, if_false] at h ⊢
                      cases h4 : is_accessory_title item.name cat
                          (parse_price_int item.price)
                          (if ENABLE_PRICE_FILTER then get_baseline_mean st cat
                           else none) with
                      | true => simp [h4]
                      | false =>
                          simp only [h4, Bool.false_eq_true, if_false] at h ⊢
                          cases h5 : price_is_outlier st cat
                              (parse_price_int item.price) with
                          | true => simp [h5]
                          | false =>
                              simp only [h5, Bool.false_eq_true, if_false] at h ⊢
                              cases h6 : (["서울", "서울시", "서울특별시"].contains
                                  (normStr (parse_location item.location).1)) with
                              | true =>
                                  simp only [h6] at h
                                  cases hpr : parse_price_int item.price <;>
                                    simp [hpr] at h
                              | false =>
                                  cases hpr : parse_price_int item.price <;>
                                    simp [hpr, h6]

/-- C5 counterexample: with the threshold of 30, a page of 99 already-seen
items followed by one new item drives the counter to 30 by the 30th item,
yet the crawl does not stop there: the new item later on the same page is
still admitted, the counter is reset by it, and the next page is also
fetched and its item admitted.  The counter is also reinitialised to zero
on every page, so it never carries across page boundaries. -/
theorem crawl_stop_immediacy_counterexample :
    CONSECUTIVE_SEEN_THRESHOLD = 30 ∧
    (pageItemLoop 0 IPHONE cState0 0 0 (cPage0.take 30)).2.1 = 30 ∧
    ((crawl_all_pages_for_query 0 cState0 IPHONE [cPage0, cPage1]).rows.map
        CrawlRow.external_id) = ["n1", "n2"] := by
  refine ⟨rfl, by decide, by decide⟩

/-- C5 amended: within one page — the counter starts at zero on each page —
the consecutive-already-seen counter increments on every already-seen item,
resets to zero on every newly admitted item, and is untouched by
filtered-but-unseen items (which also leave the rows and the seen set
unchanged); the page signals stop exactly when, at the end of the page,
the counter has reached the threshold or the page was short; and on a stop
signal no further page is fetched (the remaining items of the current page
were still processed). -/
theorem crawl_seen_counter_amended :
    (∀ (now cat count consec : Nat) (st : CrawlState) (item : BgItem)
        (rest : List BgItem) (p : String),
      pidVal item = some p → p ∈ st.seen →
      pageItemLoop now cat st count consec (item :: rest) =
        pageItemLoop now cat st count (consec + 1) rest) ∧
    (∀ (now cat count consec : Nat) (st : CrawlState) (item : BgItem)
        (rest : List BgItem) (p : String),
      pidVal item = some p → p ∉ st.seen → admitsB st cat item = true →
      (process_item now st cat item).1 = true ∧
      pageItemLoop now cat st count consec (item :: rest) =
        pageItemLoop now cat (process_item now st cat item).2 (count + 1) 0 rest) ∧
    (∀ (now cat count consec : Nat) (st : CrawlState) (item : BgItem)
        (rest : List BgItem),
      (pidVal item = none ∨
        ∃ p, pidVal item = some p ∧ p ∉ st.seen ∧ admitsB st cat item = false) →
      (process_item now st cat item).1 = false ∧
      (process_item now st cat item).2.rows = st.rows ∧
      (process_item now st cat item).2.seen = st.seen ∧
      pageItemLoop now cat st count consec (item :: rest) =
        pageItemLoop now cat (process_item now st cat item).2 count consec rest) ∧
    (∀ (now cat : Nat) (st : CrawlState) (items : List BgItem), items ≠ [] →
      ((fetch_and_process_page now st cat items).2.1 = true ↔
        (CONSECUTIVE_SEEN_THRESHOLD ≤ (pageItemLoop now cat st 0 0 items).2.1 ∨
         items.length < ITEMS_PER_PAGE))) ∧
    (∀ (now cat fuel i : Nat) (st : CrawlState) (pages : List (List BgItem)),
      (fetch_and_process_page now st cat (pages.getD i [])).2.1 = true →
      crawlPagesGo now cat pages (fuel + 1) i st =
        (fetch_and_process_page now st cat (pages.getD i [])).2.2) := by
  refine ⟨?seen, ?new, ?filtered, ?stopiff, ?stoppage⟩
  case seen =>
    intro now cat count consec st item rest p hp hmem
    have hproc : process_item now st cat item = (false, st) := by
      simp [process_item, hp, hmem]
    simp [pageItemLoop, hproc, hp, hmem]
  case new =>
    intro now cat count consec st item rest p hp hmem hadm
    have hfst : (process_item now st cat item).1 = true := by
      rw [process_item_fst_eq]
      simp [hp, hmem, hadm]
    exact ⟨hfst, by simp [pageItemLoop, hfst]⟩
  case filtered =>
    intro now cat count consec st item rest hcase
    have hfst : (process_item now st cat item).1 = false := by
      rw [process_item_fst_eq]
      rcases hcase with hnone | ⟨p, hp, hmem, hadm⟩
      · simp [hnone]
      · simp [hp, hadm]
    have hpres := process_item_reject_preserves now st cat item hfst
    refine ⟨hfst, hpres.1, hpres.2, ?_⟩
    rcases hcase with hnone | ⟨p, hp, hmem, hadm⟩
    · simp [pageItemLoop, hfst, hnone]
    · simp [pageItemLoop, hfst, hp, hpres.2, hmem]
  case stopiff =>
    intro now cat st items hne
    have hie : items.isEmpty = false := by
      cases items with
      | nil => exact absurd rfl hne
      | cons a l => rfl
    simp only [fetch_and_process_page, hie, Bool.false_eq_true, if_false]
    by_cases hth :
        CONSECUTIVE_SEEN_THRESHOLD ≤ (pageItemLoop now cat st 0 0 items).2.1
    · simp [hth]
    · by_cases hlen : items.length < ITEMS_PER_PAGE
      · simp [hth, hlen]
      · simp [hth, hlen]
  case stoppage =>
    intro now cat fuel i st pages h
    simp only [List.getD_eq_getElem?_getD] at h
    simp [crawlPagesGo, h]

/-- Witness for C5 amended, applied at a one-item seen page: the counter
increments on the seen item, and the page-end stop test is the
threshold-or-short-page disjunction. -/
theorem crawl_seen_counter_amended_witness :
    (pageItemLoop 0 1 cState0 0 0 [mkSeenBg "s0"] =
        pageItemLoop 0 1 cState0 0 1 []) ∧
    ((fetch_and_process_page 0 cState0 1 [mkSeenBg "s0"]).2.1 = true ↔
      (CONSECUTIVE_SEEN_THRESHOLD ≤
          (pageItemLoop 0 1 cState0 0 0 [mkSeenBg "s0"]).2.1 ∨
       [mkSeenBg "s0"].length < ITEMS_PER_PAGE)) :=
  ⟨crawl_seen_counter_amended.1 0 1 0 0 cState0 (mkSeenBg "s0") [] "s0" rfl
      (by decide),
   crawl_seen_counter_amended.2.2.2.1 0 1 cState0 [mkSeenBg "s0"] (by decide)⟩

/-- The conflict-update of `upsert_one` does not change any row's
(source, external_id) key. -/
theorem upsert_one_key_preserved (now : Nat) (p row : ItemsRow) :
    rowKey (if row.source == p.source && row.external_id == p.external_id then
      { row with title := p.title, price := p.price, updated_at := some now }
    else row) = rowKey row := by
  by_cases h : (row.source == p.source && row.external_id == p.external_id) = true
  · have h1 : row.source = p.source :=
      beq_iff_eq.mp ((Bool.and_eq_true _ _).mp h).1
    have h2 : row.external_id = p.external_id :=
      beq_iff_eq.mp ((Bool.and_eq_true _ _).mp h).2
    simp [rowKey, h1, h2]
  · simp [h]

/-- The conflict-update of `upsert_one` leaves the key list unchanged. -/
theorem upsert_one_map_keys (now : Nat) (table : List ItemsRow) (p : ItemsRow) :
    (table.map (fun row =>
      if row.source == p.source && row.external_id == p.external_id then
        { row with title := p.title, price := p.price, updated_at := some now }
      else row)).map rowKey = table.map rowKey := by
  rw [List.map_map]
  apply List.map_congr_left
  intro row _
  exact upsert_one_key_preserved now p row

/-- A key absent from the key list is counted zero times. -/
theorem keyCount_eq_zero {table : List ItemsRow} {k : String × String}
    (h : k ∉ table.map rowKey) : keyCount table k = 0 := by
  induction table with
  | nil => rfl
  | cons a l ih =>
      simp only [List.map_cons, List.mem_cons, not_or] at h
      unfold keyCount
      rw [List.countP_cons]
      have ha : (rowKey a == k) = false := by
        cases hb : (rowKey a == k) with
        | false => rfl
        | true => exact absurd (beq_iff_eq.mp hb).symm h.1
      rw [ha]
      simp only [Bool.false_eq_true, if_false, Nat.add_zero]
      exact ih h.2

/-- Under the uniqueness invariant, a present key is counted exactly
once. -/
theorem keyCount_eq_one {table : List ItemsRow} {k : String × String}
    (hn : (table.map rowKey).Nodup) (hm : k ∈ table.map rowKey) :
    keyCount table k = 1 := by
  induction table with
  | nil => simp at hm
  | cons a l ih =>
      simp only [List.map_cons, List.nodup_cons] at hn
      simp only [List.map_cons, List.mem_cons] at hm
      unfold keyCount
      rw [List.countP_cons]
      rcases hm with h1 | h1
      · have ha : (rowKey a == k) = true := beq_iff_eq.mpr h1.symm
        have hz : keyCount l k = 0 :=
          keyCount_eq_zero (by rw [h1]; exact hn.1)
        unfold keyCount at hz
        rw [ha, hz]
        simp
      · have ha : (rowKey a == k) = false := by
          cases hb : (rowKey a == k) with
          | false => rfl
          | true =>
              have hak : rowKey a = k := beq_iff_eq.mp hb
              rw [hak] at hn
              exact absurd h1 hn.1
        rw [ha]
        have hone := ih hn.2 h1
        unfold keyCount at hone
        rw [hone]
        simp

/-- If no row matches the key of `p`, then `p`'s key is absent from the
key list. -/
theorem upsert_one_absent_key {table : List ItemsRow} {p : ItemsRow}
    (h : table.any (fun row =>
      row.source == p.source && row.external_id == p.external_id) = false) :
    rowKey p ∉ table.map rowKey := by
  intro hmem
  rcases List.mem_map.mp hmem with ⟨row, hrow, hkey⟩
  have hsrc : row.source = p.source := congrArg Prod.fst hkey
  have hext : row.external_id = p.external_id := congrArg Prod.snd hkey
  have : table.any (fun row =>
      row.source == p.source && row.external_id == p.external_id) = true :=
    List.any_eq_true.mpr ⟨row, hrow, by simp [hsrc, hext]⟩
  rw [h] at this
  exact Bool.false_ne_true this

/-- `upsert_one` preserves the (source, external_id) uniqueness invariant. -/
theorem upsert_one_uniqueKeys (now : Nat) (table : List ItemsRow)
    (p : ItemsRow) (h : uniqueKeys table) :
    uniqueKeys (upsert_one now table p) := by
  unfold upsert_one uniqueKeys
  split
  · rw [upsert_one_map_keys]
    exact h
  · next hany =>
      rw [List.map_append, List.nodup_append]
      refine ⟨h, List.nodup_singleton _, ?_⟩
      intro k hk hk1
      rcases List.mem_singleton.mp hk1 with rfl
      exact upsert_one_absent_key (by cases hc : table.any _ <;>
        simp_all) hk

/-- After an upsert, exactly one row carries the upserted key. -/
theorem upsert_one_keyCount (now : Nat) (table : List ItemsRow)
    (p : ItemsRow) (h : uniqueKeys table) :
    keyCount (upsert_one now table p) (rowKey p) = 1 := by
  unfold upsert_one
  split
  · next hany =>
      rcases List.any_eq_true.mp hany with ⟨row, hrow, hmatch⟩
      have hsrc : row.source = p.source := by
        have := (Bool.and_eq_true _ _).mp hmatch
        exact beq_iff_eq.mp this.1
      have hext : row.external_id = p.external_id := by
        have := (Bool.and_eq_true _ _).mp hmatch
        exact beq_iff_eq.mp this.2
      have hmem : rowKey p ∈ table.map rowKey :=
        List.mem_map.mpr ⟨row, hrow, by simp [rowKey, hsrc, hext]⟩
      refine keyCount_eq_one ?_ ?_
      · rw [upsert_one_map_keys]
        exact h
      · rw [upsert_one_map_keys]
        exact hmem
  · next hany =>
      have habs : rowKey p ∉ table.map rowKey :=
        upsert_one_absent_key (by cases hc : table.any _ <;> simp_all)
      have hz := keyCount_eq_zero habs
      unfold keyCount at hz ⊢
      rw [List.countP_append, hz]
      simp [List.countP_cons]

/-- After an upsert the table holds a row with the upserted key carrying
the upserted title, price and timestamp. -/
theorem upsert_one_latest (now : Nat) (table : List ItemsRow) (p : ItemsRow)
    (hupd : p.updated_at = some now) :
    ∃ row ∈ upsert_one now table p, rowKey row = rowKey p ∧
      row.title = p.title ∧ row.price = p.price ∧
      row.updated_at = some now := by
  unfold upsert_one
  split
  · next hany =>
      rcases List.any_eq_true.mp hany with ⟨row, hrow, hmatch⟩
      have hsrc : row.source = p.source := by
        have := (Bool.and_eq_true _ _).mp hmatch
        exact beq_iff_eq.mp this.1
      have hext : row.external_id = p.external_id := by
        have := (Bool.and_eq_true _ _).mp hmatch
        exact beq_iff_eq.mp this.2
      refine ⟨{ row with
          title := p.title
          price := p.price
          updated_at := some now }, ?_, ?_, rfl, rfl, rfl⟩
      · exact List.mem_map.mpr ⟨row, hrow, by simp [hmatch]⟩
      · simp [rowKey, hsrc, hext]
  · refine ⟨p, ?_, rfl, rfl, rfl, hupd⟩
    simp

/-- A conflicting upsert does not grow the table. -/
theorem upsert_one_length_present (now : Nat) (table : List ItemsRow)
    (p : ItemsRow)
    (hany : table.any (fun row =>
      row.source == p.source && row.external_id == p.external_id) = true) :
    (upsert_one now table p).length = table.length := by
  unfold upsert_one
  rw [if_pos hany]
  exact List.length_map _ _

/-- C8: re-ingesting the same (source, external_id) listing keeps exactly
one stored row for that key, the key-uniqueness invariant is preserved,
the second ingestion takes the update path (the table does not grow), and
the surviving row carries the later title, price and update timestamp. -/
theorem upsert_dedup_latest_values (now1 now2 default : Nat)
    (emds : List (Nat × String)) (table : List ItemsRow)
    (r1 r2 : IngestRawItem) (huniq : uniqueKeys table)
    (hs : r1.source = r2.source) (he : r1.external_id = r2.external_id) :
    uniqueKeys
      (upsert_items now2 emds
        (upsert_items now1 emds table [r1] default).1 [r2] default).1 ∧
    (upsert_items now2 emds
        (upsert_items now1 emds table [r1] default).1 [r2] default).1.length =
      (upsert_items now1 emds table [r1] default).1.length ∧
    keyCount
      (upsert_items now2 emds
        (upsert_items now1 emds table [r1] default).1 [r2] default).1
      (r2.source, r2.external_id) = 1 ∧
    ∃ row ∈ (upsert_items now2 emds
        (upsert_items now1 emds table [r1] default).1 [r2] default).1,
      rowKey row = (r2.source, r2.external_id) ∧
      row.title = r2.title.getD "" ∧
      row.price = ((match r2.price with
        | some p => some p
        | none => parse_price_to_int r2.price_text).getD 0) ∧
      row.updated_at = some now2 := by
  have h1eq : (upsert_items now1 emds table [r1] default).1 =
      upsert_one now1 table (mkInsertRow now1 emds r1 default) := rfl
  have h2eq : ∀ t : List ItemsRow, (upsert_items now2 emds t [r2] default).1 =
      upsert_one now2 t (mkInsertRow now2 emds r2 default) := fun _ => rfl
  have huniq1 : uniqueKeys (upsert_items now1 emds table [r1] default).1 := by
    rw [h1eq]
    exact upsert_one_uniqueKeys now1 table _ huniq
  have hkey2 : rowKey (mkInsertRow now2 emds r2 default) =
      (r2.source, r2.external_id) := rfl
  refine ⟨?_, ?_, ?_, ?_⟩
  · rw [h2eq]
    exact upsert_one_uniqueKeys now2 _ _ huniq1
  · rw [h2eq]
    apply upsert_one_length_present
    rcases upsert_one_latest now1 table (mkInsertRow now1 emds r1 default) rfl
      with ⟨row, hrow, hk, _, _, _⟩
    apply List.any_eq_true.mpr
    refine ⟨row, by rw [h1eq]; exact hrow, ?_⟩
    have hsrc : row.source = r2.source := by
      have := congrArg Prod.fst hk
      simpa [rowKey, mkInsertRow, hs] using this
    have hext : row.external_id = r2.external_id := by
      have := congrArg Prod.snd hk
      simpa [rowKey, mkInsertRow, he] using this
    simp [mkInsertRow, hsrc, hext]
  · rw [h2eq]
    have := upsert_one_keyCount now2 _ (mkInsertRow now2 emds r2 default) huniq1
    rwa [hkey2] at this
  · rw [h2eq]
    rcases upsert_one_latest now2 _ (mkInsertRow now2 emds r2 default) rfl
      with ⟨row, hrow, hk, ht, hp, hu⟩
    exact ⟨row, hrow, by rw [hk, hkey2], ht, hp, hu⟩

/-- Witness for C8: the same bunjang listing ingested at price 500000 and
then at price 450000 leaves one row at price 450000. -/
theorem upsert_dedup_latest_values_witness :
    uniqueKeys
      (upsert_items 2 []
        (upsert_items 1 [] []
          [{ source := "bunjang", external_id := "100", category_id := some 1,
             title := some "아이폰 13", price := some 500000, price_text := none,
             url := "u", gu := none, dong := none }] 1).1
        [{ source := "bunjang", external_id := "100", category_id := some 1,
           title := some "아이폰 13", price := some 450000, price_text := none,
           url := "u", gu := none, dong := none }] 1).1 ∧
    (upsert_items 2 []
        (upsert_items 1 [] []
          [{ source := "bunjang", external_id := "100", category_id := some 1,
             title := some "아이폰 13", price := some 500000, price_text := none,
             url := "u", gu := none, dong := none }] 1).1
        [{ source := "bunjang", external_id := "100", category_id := some 1,
           title := some "아이폰 13", price := some 450000, price_text := none,
           url := "u", gu := none, dong := none }] 1).1.length =
      (upsert_items 1 [] []
        [{ source := "bunjang", external_id := "100", category_id := some 1,
           title := some "아이폰 13", price := some 500000, price_text := none,
           url := "u", gu := none, dong := none }] 1).1.length ∧
    keyCount
      (upsert_items 2 []
        (upsert_items 1 [] []
          [{ source := "bunjang", external_id := "100", category_id := some 1,
             title := some "아이폰 13", price := some 500000, price_text := none,
             url := "u", gu := none, dong := none }] 1).1
        [{ source := "bunjang", external_id := "100", category_id := some 1,
           title := some "아이폰 13", price := some 450000, price_text := none,
           url := "u", gu := none, dong := none }] 1).1
      ("bunjang", "100") = 1 ∧
    ∃ row ∈ (upsert_items 2 []
        (upsert_items 1 [] []
          [{ source := "bunjang", external_id := "100", category_id := some 1,
             title := some "아이폰 13", price := some 500000, price_text := none,
             url := "u", gu := none, dong := none }] 1).1
        [{ source := "bunjang", external_id := "100", category_id := some 1,
           title := some "아이폰 13", price := some 450000, price_text := none,
           url := "u", gu := none, dong := none }] 1).1,
      rowKey row = ("bunjang", "100") ∧
      row.title = "아이폰 13" ∧ row.price = 450000 ∧
      row.updated_at = some 2 :=
  upsert_dedup_latest_values 1 2 1 [] []
    { source := "bunjang", external_id := "100", category_id := some 1,
      title := some "아이폰 13", price := some 500000, price_text := none,
      url := "u", gu := none, dong := none }
    { source := "bunjang", external_id := "100", category_id := some 1,
      title := some "아이폰 13", price := some 450000, price_text := none,
      url := "u", gu := none, dong := none }
    (by simp [uniqueKeys]) rfl rfl

/-- Digits survive the comma/won/space stripping of the price text. -/
theorem digits_strip (s : String) :
    (stripPrice s).filter Char.isDigit = digitChars s := by
  unfold stripPrice digitChars
  rw [List.filter_filter]
  apply List.filter_congr
  intro c _
  cases hd : c.isDigit with
  | false => simp [hd]
  | true =>
      simp only [hd, Bool.true_and]
      cases hk : (c == ',' || c == '원' || c == ' ') with
      | false => simp
      | true =>
          rcases Bool.or_eq_true_iff.mp hk with hk1 | hk1
          · rcases Bool.or_eq_true_iff.mp hk1 with hk2 | hk2
            · rw [beq_iff_eq.mp hk2] at hd
              exact absurd hd (by decide)
            · rw [beq_iff_eq.mp hk2] at hd
              exact absurd hd (by decide)
          · rw [beq_iff_eq.mp hk1] at hd
            exact absurd hd (by decide)

/-- C10: a raw item's price is absent exactly when no integer price is
given and the price text is missing, empty, holds a free/negotiable
sentinel, or is digit-free; such an item is still upserted as one row,
and the stored price is 0. -/
theorem ingest_absent_price_stored_as_zero :
    (∀ pt : Option String, parse_price_to_int pt = none ↔
      (pt = none ∨ ∃ s, pt = some s ∧
        (s = "" ∨
         priceSentinels.any (fun k => infixOfB k.data (stripPrice s)) = true ∨
         digitChars s = []))) ∧
    (∀ (now default : Nat) (emds : List (Nat × String))
        (table : List ItemsRow) (r : IngestRawItem), uniqueKeys table →
      r.price = none → parse_price_to_int r.price_text = none →
      (upsert_items now emds table [r] default).2 = 1 ∧
      keyCount (upsert_items now emds table [r] default).1
        (r.source, r.external_id) = 1 ∧
      ∃ row ∈ (upsert_items now emds table [r] default).1,
        rowKey row = (r.source, r.external_id) ∧ row.price = 0) := by
  constructor
  · intro pt
    cases pt with
    | none => simp [parse_price_to_int]
    | some s =>
        simp only [parse_price_to_int, Option.some.injEq, reduceCtorEq,
          false_or, exists_eq_left']
        by_cases h0 : s = ""
        · subst h0
          simp
        · have h0' : (s == "") = false := by simp [h0]
          rw [h0']
          simp only [Bool.false_eq_true, if_false]
          cases hsen : priceSentinels.any
              (fun k => infixOfB k.data (stripPrice s)) with
          | true => simp
          | false =>
              simp only [Bool.false_eq_true, if_false]
              rw [show ((stripPrice s).filter Char.isDigit).isEmpty =
                  (digitChars s).isEmpty from by rw [digits_strip]]
              cases hde : (digitChars s).isEmpty with
              | true => simp [h0, List.isEmpty_iff.mp hde]
              | false =>
                  have hnonempty : digitChars s ≠ [] := by
                    intro hc
                    rw [hc] at hde
                    simp at hde
                  simp [h0, hnonempty]
  · intro now default emds table r huniq hprice hparse
    have hpz : (mkInsertRow now emds r default).price = 0 := by
      simp [mkInsertRow, hprice, hparse]
    have heq : (upsert_items now emds table [r] default).1 =
        upsert_one now table (mkInsertRow now emds r default) := rfl
    have hkey : rowKey (mkInsertRow now emds r default) =
        (r.source, r.external_id) := rfl
    refine ⟨rfl, ?_, ?_⟩
    · rw [heq]
      have := upsert_one_keyCount now table (mkInsertRow now emds r default)
        huniq
      rwa [hkey] at this
    · rw [heq]
      rcases upsert_one_latest now table (mkInsertRow now emds r default) rfl
        with ⟨row, hrow, hk, _, hp, _⟩
      exact ⟨row, hrow, by rw [hk, hkey], by rw [hp, hpz]⟩

/-- Witness for C10 at a "나눔" (free give-away) listing: the row is
written and the stored price is 0. -/
theorem ingest_absent_price_stored_as_zero_witness :
    (upsert_items 0 [] []
      [{ source := "daangn", external_id := "7", category_id := some 1,
         title := some "아이폰 나눔", price := none, price_text := some "나눔",
         url := "u", gu := none, dong := none }] 1).2 = 1 ∧
    keyCount (upsert_items 0 [] []
      [{ source := "daangn", external_id := "7", category_id := some 1,
         title := some "아이폰 나눔", price := none, price_text := some "나눔",
         url := "u", gu := none, dong := none }] 1).1 ("daangn", "7") = 1 ∧
    ∃ row ∈ (upsert_items 0 [] []
      [{ source := "daangn", external_id := "7", category_id := some 1,
         title := some "아이폰 나눔", price := none, price_text := some "나눔",
         url := "u", gu := none, dong := none }] 1).1,
      rowKey row = ("daangn", "7") ∧ row.price = 0 :=
  ingest_absent_price_stored_as_zero.2 0 1 [] []
    { source := "daangn", external_id := "7", category_id := some 1,
      title := some "아이폰 나눔", price := none, price_text := some "나눔",
      url := "u", gu := none, dong := none }
    (by simp [uniqueKeys]) rfl (by decide)

/-- A key is absent from an association list exactly when `lookupA`
misses. -/
theorem lookupA_none_iff {κ ν : Type} [DecidableEq κ]
    (acc : List (κ × ν)) (k : κ) :
    lookupA acc k = none ↔ k ∉ acc.map Prod.fst := by
  induction acc with
  | nil => simp [lookupA]
  | cons e rest ih =>
      by_cases h : e.1 = k
      · simp [lookupA, h]
      · simp [lookupA, h, ih, Ne.symm h]

/-- Lookup in the in-place-updated association list. -/
theorem mapAppend_lookup {κ : Type} [DecidableEq κ]
    (acc : List (κ × List Int)) (k k2 : κ) (p : Int) :
    lookupA (acc.map (fun e => if e.1 = k then (e.1, e.2 ++ [p]) else e)) k2 =
      if k2 = k then (lookupA acc k2).map (fun l => l ++ [p])
      else lookupA acc k2 := by
  induction acc with
  | nil => by_cases h : k2 = k <;> simp [lookupA, h]
  | cons e rest ih =>
      by_cases he : e.1 = k
      · by_cases h2 : k2 = k
        · subst h2
          simp [lookupA, he, ih]
        · have hek2 : ¬ e.1 = k2 := fun hc => h2 (hc.symm.trans he)
          have hkk2 : ¬ k = k2 := fun hc => h2 hc.symm
          simp [lookupA, he, hek2, h2, hkk2, ih]
      · by_cases h2 : e.1 = k2
        · have hk2k : ¬ k2 = k := fun hc => he (h2.trans hc)
          simp [lookupA, he, h2, hk2k]
        · simp [lookupA, he, h2, ih]

/-- Lookup in the entry-appended association list. -/
theorem append_lookup {κ : Type} [DecidableEq κ]
    (acc : List (κ × List Int)) (k k2 : κ) (p : Int) :
    lookupA (acc ++ [(k, [p])]) k2 =
      match lookupA acc k2 with
      | some l => some l
      | none => if k2 = k then some [p] else none := by
  induction acc with
  | nil => by_cases h : k2 = k <;> simp [lookupA, h, Ne.symm]
  | cons e rest ih =>
      by_cases h2 : e.1 = k2
      · simp [lookupA, h2]
      · simp [lookupA, h2, ih]

/-- Appending a price to a group key binds that key to its old list plus
the price. -/
theorem addToGroup_lookup_self {κ : Type} [DecidableEq κ]
    (acc : List (κ × List Int)) (k : κ) (p : Int) :
    lookupA (addToGroup acc k p) k =
      some ((lookupA acc k).getD [] ++ [p]) := by
  unfold addToGroup
  cases hl : lookupA acc k with
  | none =>
      rw [append_lookup, hl]
      simp
  | some l =>
      rw [mapAppend_lookup, if_pos rfl, hl]
      simp

/-- Appending a price to one group key leaves other keys' bindings
unchanged. -/
theorem addToGroup_lookup_other {κ : Type} [DecidableEq κ]
    (acc : List (κ × List Int)) (k k2 : κ) (p : Int) (hne : k2 ≠ k) :
    lookupA (addToGroup acc k p) k2 = lookupA acc k2 := by
  unfold addToGroup
  cases hl : lookupA acc k with
  | none =>
      rw [append_lookup]
      cases h2 : lookupA acc k2 with
      | none => simp [hne]
      | some l => simp
  | some l =>
      rw [mapAppend_lookup, if_neg hne]

/-- Group insertion preserves distinctness of the group keys. -/
theorem addToGroup_keys_nodup {κ : Type} [DecidableEq κ]
    {acc : List (κ × List Int)} (k : κ) (p : Int)
    (h : (acc.map Prod.fst).Nodup) :
    ((addToGroup acc k p).map Prod.fst).Nodup := by
  unfold addToGroup
  cases hl : lookupA acc k with
  | none =>
      rw [List.map_append, List.nodup_append]
      refine ⟨h, List.nodup_singleton _, ?_⟩
      intro x hx hx1
      have hxk : x = k := by simpa using hx1
      rw [hxk] at hx
      exact ((lookupA_none_iff acc k).mp hl) hx
  | some l =>
      have hkeys : (acc.map (fun e =>
          if e.1 = k then (e.1, e.2 ++ [p]) else e)).map Prod.fst =
          acc.map Prod.fst := by
        rw [List.map_map]
        apply List.map_congr_left
        intro e _
        by_cases he : e.1 = k
        · simp [he]
        · simp [he]
      rw [hkeys]
      exact h

/-- The grouping loop binds every key to exactly the prices of the items
matching that key, in item order, appended to whatever the accumulator
already held. -/
theorem buildStats_go_lookup (skuMap : Nat → Option Nat) (interval : String)
    (items : List AggItem) :
    ∀ (acc : List (AggKey × List Int)) (k : AggKey),
    lookupA (items.foldl (aggStep skuMap interval) acc) k =
      match lookupA acc k with
      | some l => some (l ++ pricesForAll skuMap interval items k)
      | none =>
          if (pricesForAll skuMap interval items k).isEmpty then none
          else some (pricesForAll skuMap interval items k) := by
  induction items with
  | nil =>
      intro acc k
      cases h : lookupA acc k <;> simp [pricesForAll, h]
  | cons item rest ih =>
      intro acc k
      rw [List.foldl_cons]
      cases hsku : skuOf skuMap item with
      | none =>
          rw [show aggStep skuMap interval acc item = acc from by
            unfold aggStep
            rw [hsku]]
          have hnpred : ¬ (skuOf skuMap item = some k.1 ∧
              item.region_id = k.2.1 ∧
              truncate_to_bucket item.created_at interval = k.2.2) := by
            rintro ⟨h1, -, -⟩
            rw [hsku] at h1
            exact Option.noConfusion h1
          have hpc : pricesForAll skuMap interval (item :: rest) k =
              pricesForAll skuMap interval rest k := by
            unfold pricesForAll
            rw [List.filter_cons]
            simp [hnpred]
          rw [ih, hpc]
      | some sku =>
          rw [show aggStep skuMap interval acc item =
              addToGroup acc
                (sku, item.region_id,
                  truncate_to_bucket item.created_at interval)
                item.price from by
            unfold aggStep
            rw [hsku]]
          by_cases hk :
              k = (sku, item.region_id,
                truncate_to_bucket item.created_at interval)
          · have hpred : skuOf skuMap item = some k.1 ∧
                item.region_id = k.2.1 ∧
                truncate_to_bucket item.created_at interval = k.2.2 := by
              rw [hk]
              exact ⟨hsku, rfl, rfl⟩
            have hpc : pricesForAll skuMap interval (item :: rest) k =
                item.price :: pricesForAll skuMap interval rest k := by
              unfold pricesForAll
              rw [List.filter_cons]
              simp [hpred]
            rw [ih, hpc]
            rw [← hk, addToGroup_lookup_self]
            cases hacc : lookupA acc k <;> simp [hacc]
          · have hnpred : ¬ (skuOf skuMap item = some k.1 ∧
                item.region_id = k.2.1 ∧
                truncate_to_bucket item.created_at interval = k.2.2) := by
              rintro ⟨h1, h2, h3⟩
              rw [hsku] at h1
              injection h1 with h1e
              exact hk (Prod.ext h1e (Prod.ext h2 h3)).symm
            have hpc : pricesForAll skuMap interval (item :: rest) k =
                pricesForAll skuMap interval rest k := by
              unfold pricesForAll
              rw [List.filter_cons]
              simp [hnpred]
            rw [ih, addToGroup_lookup_other _ _ _ _ hk, hpc]

/-- The grouping loop keeps group keys distinct. -/
theorem buildStats_go_nodup (skuMap : Nat → Option Nat) (interval : String)
    (items : List AggItem) :
    ∀ acc : List (AggKey × List Int), (acc.map Prod.fst).Nodup →
    ((items.foldl (aggStep skuMap interval) acc).map Prod.fst).Nodup := by
  induction items with
  | nil => intro acc h; exact h
  | cons item rest ih =>
      intro acc h
      rw [List.foldl_cons]
      cases hsku : skuOf skuMap item with
      | none =>
          rw [show aggStep skuMap interval acc item = acc from by
            unfold aggStep
            rw [hsku]]
          exact ih acc h
      | some sku =>
          rw [show aggStep skuMap interval acc item =
              addToGroup acc
                (sku, item.region_id,
                  truncate_to_bucket item.created_at interval)
                item.price from by
            unfold aggStep
            rw [hsku]]
          exact ih _ (addToGroup_keys_nodup _ _ h)

/-- Folding the per-bucket upserts over rows with distinct keys yields a
store that maps each written key to its freshly computed fields and every
other key to its prior binding. -/
theorem statsFold_lookup :
    ∀ (rows : List (AggKey × List Int)) (store : StatsStore) (k : AggKey),
    (rows.map Prod.fst).Nodup →
    (rows.foldl (fun st e => statsUpsert st e.1 (mkFields e.2)) store) k =
      (match lookupA rows k with
       | some l => some (mkFields l)
       | none => store k) := by
  intro rows
  induction rows with
  | nil => intro store k h; simp [lookupA]
  | cons e rest ih =>
      intro store k h
      simp only [List.map_cons, List.nodup_cons] at h
      rw [List.foldl_cons, ih _ k h.2]
      by_cases hk : e.1 = k
      · have hz : lookupA rest k = none :=
          (lookupA_none_iff rest k).mpr (by rw [← hk]; exact h.1)
        rw [hz]
        simp [lookupA, hk, statsUpsert]
      · cases hr : lookupA rest k with
        | some l => simp [lookupA, hk, hr]
        | none => simp [lookupA, hk, hr, statsUpsert, Ne.symm hk]

/-- The content of one aggregated store: every key with matching listings
holds the from-scratch statistics over all its listings; every other key
keeps its previous binding. -/
theorem aggregate_lookup (skuMap : Nat → Option Nat) (items : List AggItem)
    (interval : String) (store : StatsStore) (k : AggKey) :
    aggregate_price_stats skuMap items interval store k =
      (match statsRowAll skuMap interval items k with
       | some f => some f
       | none => store k) := by
  unfold aggregate_price_stats
  have hnd : ((buildStats skuMap interval items).map Prod.fst).Nodup := by
    unfold buildStats
    exact buildStats_go_nodup skuMap interval items [] (by simp)
  rw [statsFold_lookup _ _ _ hnd]
  rw [show lookupA (buildStats skuMap interval items) k =
      (if (pricesForAll skuMap interval items k).isEmpty then none
       else some (pricesForAll skuMap interval items k)) from by
    unfold buildStats
    rw [buildStats_go_lookup skuMap interval items [] k]
    simp [lookupA]]
  unfold statsRowAll
  by_cases h : (pricesForAll skuMap interval items k).isEmpty <;> simp [h]

/-- C4 counterexample: a listing with status "sold" is aggregated — the
stored bucket row counts it, while the statistics over the currently
active listings of that bucket are empty, so the stored row does not
equal the active-only recomputation the claim describes. -/
theorem aggregate_active_filter_counterexample :
    aggregate_price_stats (fun i => if i = 1 then some 5 else none)
      [⟨1, 1, some 10, 100, ⟨2024, 1, 2, 3, 4, 5, 6⟩, "sold"⟩] "day"
      (fun _ => none)
      ((5 : Nat), (some 10 : Option Nat),
        (⟨2024, 1, 2, 0, 0, 0, 0⟩ : PyDateTime)) =
      some { items_num := 1, sum_price := 100, avg_price := 100,
             min_price := 100, max_price := 100 } ∧
    statsRowActive (fun i => if i = 1 then some 5 else none) "day"
      [⟨1, 1, some 10, 100, ⟨2024, 1, 2, 3, 4, 5, 6⟩, "sold"⟩]
      ((5 : Nat), (some 10 : Option Nat),
        (⟨2024, 1, 2, 0, 0, 0, 0⟩ : PyDateTime)) = none := by
  constructor
  · decide
  · decide

/-- C4 amended: each stored statistics row keyed by (sku, region,
bucket-start) equals the count, sum, average, minimum and maximum
computed from scratch over ALL listings of that SKU, region and bucket
that have a resolved SKU — whatever their status — and keys without
matching listings keep their previous rows; on key conflict all five
fields are replaced, so running the aggregator twice over the same
listings yields an identical store. -/
theorem aggregate_recomputes_all_and_replaces :
    (∀ (skuMap : Nat → Option Nat) (items : List AggItem) (interval : String)
        (store : StatsStore) (k : AggKey),
      aggregate_price_stats skuMap items interval store k =
        (match statsRowAll skuMap interval items k with
         | some f => some f
         | none => store k)) ∧
    (∀ (skuMap : Nat → Option Nat) (items : List AggItem) (interval : String)
        (store : StatsStore),
      aggregate_price_stats skuMap items interval
          (aggregate_price_stats skuMap items interval store) =
        aggregate_price_stats skuMap items interval store) := by
  constructor
  · exact aggregate_lookup
  · intro skuMap items interval store
    funext k
    rw [aggregate_lookup, aggregate_lookup]
    cases h : statsRowAll skuMap interval items k with
    | some f => simp [h]
    | none => simp [h, aggregate_lookup]

/-- C2 amended: attribute values are hashed verbatim — the serialised
string keeps the literal value "1TB" with no conversion to a base unit —
so the "1TB" and "1024GB" mappings fingerprint differently. -/
theorem fingerprint_hashes_values_verbatim :
    (generate_fingerprint [("category", "laptop"), ("storage", "1TB")]).data =
      (sha256HexOfString "category:laptop|storage:1TB").data.take 32 ∧
    generate_fingerprint [("category", "laptop"), ("storage", "1TB")] ≠
      generate_fingerprint [("category", "laptop"), ("storage", "1024GB")] := by
  constructor
  · decide
  · decide

end HowMuch
namespace HowMuch

/-- Every output of `hexChar` is one of the sixteen hex digit characters. -/
theorem hexChar_mem (n : Nat) : hexChar n ∈ hexCharList := by
  unfold hexChar
  have h : n % 16 < 16 := Nat.mod_lt _ (by norm_num)
  rw [List.getD_eq_getElem _ _ (by simpa [hexCharList] using h)]
  exact List.getElem_mem _

/-- Every character of a word's hex rendering is a hex digit. -/
theorem wordHexChars_mem (w : Nat) : ∀ c ∈ wordHexChars w, c ∈ hexCharList := by
  intro c hc
  unfold wordHexChars at hc
  simp only [List.mem_map] at hc
  obtain ⟨i, _, rfl⟩ := hc
  exact hexChar_mem _

/-- Every character of a SHA-256 hex digest is a hex digit. -/
theorem sha256HexChars_mem (msg : List Nat) :
    ∀ c ∈ sha256HexChars msg, c ∈ hexCharList := by
  unfold sha256HexChars
  generalize sha256Words msg = l
  induction l with
  | nil => intro c hc; simp at hc
  | cons w t ih =>
      intro c hc
      simp only [List.foldr_cons, List.mem_append] at hc
      rcases hc with h | h
      · exact wordHexChars_mem w c h
      · exact ih c h

/-- Every character of a pipeline fingerprint is a hex digit. -/
theorem fingerprint_data_hex (attrs : List (String × String)) :
    ∀ c ∈ (generate_fingerprint attrs).data, c ∈ hexCharList := by
  intro c hc
  unfold generate_fingerprint at hc
  have hd : (String.mk ((sha256HexChars
      (utf8Bytes (joinAttrs (sortAttrs attrs)))).take 32)).data =
      (sha256HexChars (utf8Bytes (joinAttrs (sortAttrs attrs)))).take 32 := rfl
  rw [hd] at hc
  exact sha256HexChars_mem _ c (List.mem_of_mem_take hc)

/-- A literal (non-wildcard) character of a LIKE pattern occurs in any
text the pattern prefix-matches. -/
theorem likePrefix_mem_of_mem (c : Char) (hw : c ≠ '_') :
    ∀ (pat s : List Char), c ∈ pat → likePrefix pat s = true → c ∈ s := by
  intro pat
  induction pat with
  | nil => intro s hc _; cases hc
  | cons p ps ih =>
      intro s hc h
      cases s with
      | nil => simp [likePrefix] at h
      | cons x xs =>
          simp only [likePrefix, Bool.and_eq_true, Bool.or_eq_true,
            beq_iff_eq] at h
          obtain ⟨h1, h2⟩ := h
          rcases List.mem_cons.mp hc with rfl | hc2
          · rcases h1 with h1 | h1
            · exact absurd h1 hw
            · rw [h1]; exact List.mem_cons_self x xs
          · exact List.mem_cons_of_mem x (ih xs hc2 h2)

/-- A literal (non-wildcard) character of a LIKE pattern occurs in any
text the pattern matches anywhere. -/
theorem likeInfix_mem_of_mem (c : Char) (hw : c ≠ '_') :
    ∀ (pat s : List Char), c ∈ pat → likeInfix pat s = true → c ∈ s := by
  intro pat s hc h
  induction s with
  | nil => exact likePrefix_mem_of_mem c hw pat [] hc h
  | cons x xs ih =>
      unfold likeInfix at h
      simp only [Bool.or_eq_true] at h
      rcases h with h1 | h1
      · exact likePrefix_mem_of_mem c hw pat (x :: xs) hc h1
      · exact List.mem_cons_of_mem x (ih h1)

/-- A pattern whose stripped inner part contains `=` never LIKE-matches a
pipeline fingerprint. -/
theorem sqlLike_eq_no_fingerprint (pattern : String)
    (attrs : List (String × String))
    (hmem : '=' ∈ (pattern.data.drop 1).dropLast) :
    sqlLikeContains pattern (generate_fingerprint attrs) = false := by
  unfold sqlLikeContains
  cases hlik : likeInfix ((pattern.data.drop 1).dropLast)
      (generate_fingerprint attrs).data
  · rfl
  · exfalso
    have h1 : '=' ∈ (generate_fingerprint attrs).data :=
      likeInfix_mem_of_mem '=' (by decide) _ _ hmem hlik
    exact absurd (fingerprint_data_hex attrs '=' h1) (by decide)

/-- The character before a marker in the stripped inner region of a
`%`-delimited pattern is a member of that region. -/
theorem mem_inner_region (pre suf : List Char) (c : Char) :
    c ∈ (((('%' : Char) :: (pre ++ c :: suf)) ++ ['%']).drop 1).dropLast := by
  have h1 : ((('%' : Char) :: (pre ++ c :: suf)) ++ ['%']).drop 1 =
      (pre ++ c :: suf) ++ ['%'] := rfl
  rw [h1, List.dropLast_concat]
  exact List.mem_append_right pre (List.mem_cons_self c suf)

/-- The storage fragment pattern keeps an `=` in its inner region. -/
theorem storage_inner_eq (sval : String) :
    '=' ∈ ((("%storage=i:" ++ sval ++ "%").data.drop 1).dropLast) := by
  have hd : ("%storage=i:" ++ sval ++ "%").data =
      ('%' : Char) :: ((['s', 't', 'o', 'r', 'a', 'g', 'e'] ++
        '=' :: (['i', ':'] ++ sval.data)) ++ ['%']) := by
    show ("%storage=i:".data ++ sval.data) ++ "%".data = _
    simp [hexCharList]
  rw [hd]
  have := mem_inner_region (['s', 't', 'o', 'r', 'a', 'g', 'e'])
    (['i', ':'] ++ sval.data) '='
  simp only [List.cons_append] at this
  exact this

/-- The option fragment pattern keeps an `=` in its inner region. -/
theorem option_inner_eq (code : String) (oid : Nat) :
    '=' ∈ ((("%" ++ code ++ "=o:" ++ toString oid ++ "%").data.drop 1).dropLast) := by
  have hd : ("%" ++ code ++ "=o:" ++ toString oid ++ "%").data =
      ('%' : Char) :: ((code.data ++
        '=' :: (['o', ':'] ++ (toString oid).data)) ++ ['%']) := by
    show ((("%".data ++ code.data) ++ "=o:".data) ++ (toString oid).data) ++
        "%".data = _
    simp [hexCharList]
  rw [hd]
  have := mem_inner_region code.data (['o', ':'] ++ (toString oid).data) '='
  simp only [List.cons_append] at this
  exact this

/-- C3.  The SKU resolver can never return a SKU stored by the pipeline:
fingerprints written by `generate_fingerprint` consist of hex digits only,
while every LIKE fragment the resolver builds requires a literal `=` in the
fingerprint, so every fragment fails on every pipeline fingerprint — shown
in general for both fragment shapes, and end to end on a store holding
exactly the pipeline SKU for the requested attribute set, where resolution
raises `ValueError` instead of returning that SKU. -/
theorem resolver_never_matches_pipeline_fingerprints :
    (∀ (attrs : List (String × String)) (c : Char),
        c ∈ (generate_fingerprint attrs).data → c ∈ hexCharList) ∧
    (∀ (pattern : String) (attrs : List (String × String)),
        '=' ∈ (pattern.data.drop 1).dropLast →
        sqlLikeContains pattern (generate_fingerprint attrs) = false) ∧
    (∀ (sval : String) (attrs : List (String × String)),
        sqlLikeContains ("%storage=i:" ++ sval ++ "%")
          (generate_fingerprint attrs) = false) ∧
    (∀ (code : String) (oid : Nat) (attrs : List (String × String)),
        sqlLikeContains ("%" ++ code ++ "=o:" ++ toString oid ++ "%")
          (generate_fingerprint attrs) = false) ∧
    fetch_sku_id_with_fingerprint dbOneSku "iPhone" specModelStorage =
      .error (.valueError "No SKU found matching the specifications") := by
  refine ⟨?_, ?_, ?_, ?_, ?_⟩
  · intro attrs c hc; exact fingerprint_data_hex attrs c hc
  · intro pattern attrs hmem; exact sqlLike_eq_no_fingerprint pattern attrs hmem
  · intro sval attrs
    exact sqlLike_eq_no_fingerprint _ attrs (storage_inner_eq sval)
  · intro code oid attrs
    exact sqlLike_eq_no_fingerprint _ attrs (option_inner_eq code oid)
  · rfl

theorem resolver_never_matches_pipeline_fingerprints_witness :
    ('=' ∈ (("%storage=i:256%".data.drop 1)).dropLast ∧
     sqlLikeContains "%storage=i:256%"
       (generate_fingerprint [("model", "iPhone 13"), ("storage", "256GB")]) =
       false) :=
  ⟨by decide,
   resolver_never_matches_pipeline_fingerprints.2.1 "%storage=i:256%"
     [("model", "iPhone 13"), ("storage", "256GB")] (by decide)⟩

end HowMuch
namespace HowMuch

/-- C9 counterexample: a request naming the unrecognized product
"Galaxy" does not receive a structured error-status body — the route's
`except ValueError` handler converts the raised `ValueError` into an
`HTTPException(400)`, a protocol-level failure distinct from every
structured `.ok` body. -/
theorem analytics_unrecognized_product_counterexample :
    analytics_summary emptyDB "Galaxy" specModelStorage emptyRegion 0 =
      .httpError 400 "Unsupported product" ∧
    ∀ body : AnalyticsResult,
      analytics_summary emptyDB "Galaxy" specModelStorage emptyRegion 0 ≠
        .ok body := by
  constructor
  · rfl
  · intro body h
    rw [show analytics_summary emptyDB "Galaxy" specModelStorage emptyRegion 0 =
        .httpError 400 "Unsupported product" from rfl] at h
    exact ApiOutcome.noConfusion h

/-- C9 amended.  The analytics boundary maps a `ValueError` to an HTTP 400
whose detail is the raw exception message and lets raised `HTTPException`s
surface as protocol-level failures: in particular every request naming an
unrecognized product (with a nonempty model) yields HTTP 400 "Unsupported
product", not a structured error-status body; and whenever a structured
body is returned at all, its status field is "success" — no structured
error-status body exists. -/
theorem analytics_error_boundary_amended :
    (∀ (db : AnalyticsDB) (sp : SpecReq) (region : RegionReq) (jnow : ℚ)
        (product m : String),
        sp.model = some m → m ≠ "" →
        PRODUCT2CATEGORY.find? (fun p => p.1 == product) = none →
        analytics_summary db product sp region jnow =
          .httpError 400 "Unsupported product") ∧
    (∀ (db : AnalyticsDB) (product : String) (sp : SpecReq)
        (region : RegionReq) (jnow : ℚ) (body : AnalyticsResult),
        analytics_summary db product sp region jnow = .ok body →
        body.status = "success") := by
  constructor
  · intro db sp region jnow product m hm hne hfind
    have hm2 : (m == "") = false := beq_eq_false_iff_ne.mpr hne
    unfold analytics_summary run_analytics fetch_sku_id_with_fingerprint
    rw [hm, hfind]
    simp [hm2]
  · intro db product sp region jnow body h
    unfold analytics_summary at h
    split at h
    case _ r hr =>
        unfold run_analytics at hr
        split at hr
        · exact absurd hr (by simp)
        case _ pair hp =>
            split at hr
            · exact absurd hr (by simp)
            case _ rid hrid =>
                split at hr
                · exact absurd hr (by simp)
                case _ summary hs =>
                    split at hr
                    · exact absurd hr (by simp)
                    case _ regional hreg =>
                        split at hr
                        · exact absurd hr (by simp)
                        case _ trend ht =>
                            split at hr
                            · exact absurd hr (by simp)
                            case _ lowest hl =>
                                injection hr with hr2
                                injection h with h2
                                rw [← h2, ← hr2]
    · exact absurd h (by simp)
    · exact absurd h (by simp)

theorem analytics_error_boundary_amended_witness :
    analytics_summary emptyDB "Samsung" specModelStorage emptyRegion 0 =
      .httpError 400 "Unsupported product" :=
  analytics_error_boundary_amended.1 emptyDB specModelStorage emptyRegion 0
    "Samsung" "iPhone 13" rfl (by decide) (by decide)

end HowMuch
